import Mathlib

/-!
Verification of the Postgres-dumper ingestion pipeline: a shallow embedding of
the format detector (src/lib/parsers/formatDetector.ts), the delimited parser
and the second revision of the Markdown table parser (src/lib/parsers/csvParser.ts),
the first revision of the Markdown table parser and the JSON parser
(src/lib/parsers/markdownParser.ts), and the SQL generator
(src/lib/generators/sqlGenerator.ts).

JavaScript runtime conventions used by that code are modelled explicitly:
strings are lists of characters, `undefined` is `Option.none`, JS objects are
insertion-ordered association lists with overwrite-on-assignment, JS numbers
are modelled as exact decimals (mantissa times a power of ten), and the
engine-dependent pieces (`Number(...)`, `new Date(...)`, `toISOString`,
`JSON.parse`, `JSON.stringify`) are modelled by executable functions that follow
the standard semantics on the input shapes the repository's regexes admit.
-/

/-! ### JS string primitives -/

/-- The whitespace characters recognised by JS `String.prototype.trim` and the
`\s` class (restricted to the ASCII range actually exercised by the code). -/
def isJsWs (c : Char) : Bool :=
  c = ' ' || c = '\t' || c = '\n' || c = '\r' || c = '\x0b' || c = '\x0c'

/-- `trim` on a character list: drop JS whitespace from both ends. -/
def jsTrimL (l : List Char) : List Char :=
  ((l.dropWhile isJsWs).reverse.dropWhile isJsWs).reverse

/-- JS `input.trim()`. -/
def jsTrim (s : String) : String := String.mk (jsTrimL s.data)

/-- JS `line.trim() !== ''` is false, i.e. the line is blank. -/
def isBlankL (l : List Char) : Bool := (jsTrimL l).isEmpty

/-- JS `str.split(d)` for a single-character separator: never returns an empty
list, and splits at every occurrence. -/
def splitOnChar (d : Char) : List Char → List (List Char)
  | [] => [[]]
  | c :: cs =>
    if c = d then [] :: splitOnChar d cs
    else
      match splitOnChar d cs with
      | [] => [[c]]
      | h :: t => (c :: h) :: t

/-- JS `str.split(/\r?\n/)`: split at every `\n`, additionally dropping a `\r`
that immediately precedes it. A lone `\r` stays in place. The fuel only
serves structural recursion and is never exhausted when it starts at the
input length. -/
def splitLinesAux : Nat → List Char → List (List Char)
  | _, [] => [[]]
  | 0, l => [l]
  | fuel + 1, c :: cs =>
    if c = '\n' then [] :: splitLinesAux fuel cs
    else if c = '\r' ∧ cs.head? = some '\n' then [] :: splitLinesAux fuel cs.tail
    else
      match splitLinesAux fuel cs with
      | [] => [[c]]
      | h :: t => (c :: h) :: t

def splitLinesCRLF (l : List Char) : List (List Char) := splitLinesAux l.length l

/-- Number of occurrences of a character, JS `(line.match(/d/g) || []).length`. -/
def countChar (d : Char) : List Char → Nat
  | [] => 0
  | c :: cs => (if c = d then 1 else 0) + countChar d cs

/-- ASCII lower-casing, JS `toLowerCase` restricted to ASCII. -/
def charLower (c : Char) : Char :=
  if 'A' ≤ c ∧ c ≤ 'Z' then Char.ofNat (c.toNat + 32) else c

def lowerL (l : List Char) : List Char := l.map charLower

def jsLower (s : String) : String := String.mk (lowerL s.data)

/-- Code-point lexicographic comparison used to model JS default array sort on
strings (UTF-16 order; identical to code-point order on the inputs involved). -/
def strLeAux : List Char → List Char → Bool
  | [], _ => true
  | _ :: _, [] => false
  | a :: as, b :: bs => if a = b then strLeAux as bs else decide (a < b)

def strLe (a b : String) : Bool := strLeAux a.data b.data

/-- Insertion sort by `strLe`; models `Array.prototype.sort()` with the default
comparator (the inputs it is applied to are duplicate-free, so stability is
irrelevant). -/
def insertStr (x : String) : List String → List String
  | [] => [x]
  | y :: ys => if strLe x y then x :: y :: ys else y :: insertStr x ys

def sortStrs : List String → List String
  | [] => []
  | x :: xs => insertStr x (sortStrs xs)

/-- Substring test (used to model JS `String.prototype.includes`). -/
def isPrefixL : List Char → List Char → Bool
  | [], _ => true
  | _ :: _, [] => false
  | a :: as, b :: bs => a = b && isPrefixL as bs

def containsSub (needle : List Char) : List Char → Bool
  | [] => isPrefixL needle []
  | c :: cs => isPrefixL needle (c :: cs) || containsSub needle cs

def jsIncludes (s sub : String) : Bool := containsSub sub.data s.data

def startsWithL (pre l : List Char) : Bool := isPrefixL pre l

/-! ### JS numbers as exact decimals

JS numbers are IEEE doubles; every numeric value this code ever produces comes
from parsing a short decimal literal, so we model them exactly as
`man * 10 ^ e10` in canonical form (`man` not divisible by 10, and `0` is
`⟨0, 0⟩`). -/

structure JsNum where
  man : Int
  e10 : Int
deriving DecidableEq, Repr

def jsNumNormAux : Nat → Int → Int → JsNum
  | 0, m, e => ⟨m, e⟩
  | fuel + 1, m, e =>
    if m % 10 = 0 then jsNumNormAux fuel (m / 10) (e + 1) else ⟨m, e⟩

/-- Build a canonical `JsNum` from a mantissa and a base-ten exponent. -/
def JsNum.make (man e10 : Int) : JsNum :=
  if man = 0 then ⟨0, 0⟩ else jsNumNormAux man.natAbs man e10

/-- The result of JS `Number(...)` / numeric coercion. -/
inductive JsNumber where
  | nan
  | inf (pos : Bool)
  | fin (v : JsNum)
deriving DecidableEq, Repr

/-- Decimal rendering of a canonical `JsNum`, modelling JS `String(n)` for the
magnitudes produced here (JS switches to exponent notation only beyond 1e21 or
below 1e-6, which the pipeline never produces). -/
def JsNum.toDec (n : JsNum) : String :=
  if n.man = 0 then "0"
  else
    let sign := if n.man < 0 then "-" else ""
    let a := n.man.natAbs
    if 0 ≤ n.e10 then
      sign ++ Nat.repr (a * 10 ^ n.e10.toNat)
    else
      let k := (-n.e10).toNat
      let ip := a / 10 ^ k
      let fp := a % 10 ^ k
      let fd := Nat.repr fp
      let pad := String.mk (List.replicate (k - fd.length) '0')
      sign ++ Nat.repr ip ++ "." ++ pad ++ fd

/-! ### JS `Number(...)` coercion -/

def digitsToNat (l : List Char) : Nat :=
  l.foldl (fun a c => a * 10 + (c.toNat - 48)) 0

def takeDigits (l : List Char) : List Char × List Char :=
  (l.takeWhile Char.isDigit, l.dropWhile Char.isDigit)

def isHexDigit (c : Char) : Bool :=
  c.isDigit || ('a' ≤ c ∧ c ≤ 'f') || ('A' ≤ c ∧ c ≤ 'F')

def hexDigitVal (c : Char) : Nat :=
  if c.isDigit then c.toNat - 48
  else if 'a' ≤ c ∧ c ≤ 'f' then c.toNat - 87
  else c.toNat - 55

def hexToNat (l : List Char) : Nat :=
  l.foldl (fun a c => a * 16 + hexDigitVal c) 0

/-- Decimal literal body (after an optional sign): `digits [. digits] [e[±]digits]`,
requiring at least one digit overall, exactly as JS `Number` accepts. -/
def parseDecBody (l : List Char) : Option JsNum :=
  let (intD, r1) := takeDigits l
  let (fracD, r2) :=
    match r1 with
    | '.' :: r => takeDigits r
    | _ => (([] : List Char), r1)
  if intD = [] ∧ fracD = [] then none
  else
    let hadDot := match r1 with | '.' :: _ => true | _ => false
    let afterFrac := if hadDot then r2 else r1
    let expPart : Option (Int × List Char) :=
      match afterFrac with
      | 'e' :: r | 'E' :: r =>
        match r with
        | '+' :: r2 =>
          let (ed, r3) := takeDigits r2
          if ed = [] then none else some ((digitsToNat ed : Int), r3)
        | '-' :: r2 =>
          let (ed, r3) := takeDigits r2
          if ed = [] then none else some (-(digitsToNat ed : Int), r3)
        | _ =>
          let (ed, r3) := takeDigits afterFrac.tail
          if ed = [] then none else some ((digitsToNat ed : Int), r3)
      | _ => some (0, afterFrac)
    match expPart with
    | none => none
    | some (e, rest) =>
      if rest = [] then
        some (JsNum.make (digitsToNat (intD ++ fracD)) (e - (fracD.length : Int)))
      else none

/-- JS `Number(str)`: trim, empty is 0, `Infinity` forms, hex/octal/binary
literals (only unsigned), otherwise an optionally signed decimal literal. -/
def jsStringToNumber (s : String) : JsNumber :=
  let t := jsTrimL s.data
  match t with
  | [] => .fin ⟨0, 0⟩
  | '0' :: x :: rest =>
    if x = 'x' ∨ x = 'X' then
      if rest ≠ [] ∧ rest.all isHexDigit then .fin (JsNum.make (hexToNat rest) 0) else .nan
    else if x = 'o' ∨ x = 'O' then
      if rest ≠ [] ∧ rest.all (fun c => '0' ≤ c ∧ c ≤ '7') then
        .fin (JsNum.make (rest.foldl (fun a c => a * 8 + (c.toNat - 48)) 0) 0)
      else .nan
    else if x = 'b' ∨ x = 'B' then
      if rest ≠ [] ∧ rest.all (fun c => c = '0' ∨ c = '1') then
        .fin (JsNum.make (rest.foldl (fun a c => a * 2 + (c.toNat - 48)) 0) 0)
      else .nan
    else
      match parseDecBody t with
      | some v => .fin v
      | none => .nan
  | _ =>
    let (neg, body) :=
      match t with
      | '+' :: r => (false, r)
      | '-' :: r => (true, r)
      | _ => (false, t)
    if body = ("Infinity").data then .inf !neg
    else
      match parseDecBody body with
      | some v => .fin (if neg then JsNum.make (-v.man) v.e10 else v)
      | none => .nan

/-! ### JS `Date` model

Only the date shapes reachable through the repository's regex guards are
modelled: ISO `YYYY-MM-DD[THH:MM:SS[.fff][Z|±HH:MM]]` (treated as UTC; the
sandbox model identifies local time with UTC) and the legacy month-first
`NN/NN/NNNN`, `NNNN/NN/NN`, `NN-NN-NNNN` forms. -/

inductive IsoZone where
  | utc
  | off (pos : Bool) (oh om : Nat)
deriving DecidableEq, Repr

structure IsoTime where
  hh : Nat
  mi : Nat
  ss : Nat
  fracDs : List Char
  zone : Option IsoZone
deriving DecidableEq, Repr

structure IsoShape where
  y : Nat
  mo : Nat
  d : Nat
  time : Option IsoTime
deriving DecidableEq, Repr

def take2D : List Char → Option (Nat × List Char)
  | a :: b :: r => if a.isDigit ∧ b.isDigit then some (digitsToNat [a, b], r) else none
  | _ => none

def take4D : List Char → Option (Nat × List Char)
  | a :: b :: c :: d :: r =>
    if a.isDigit ∧ b.isDigit ∧ c.isDigit ∧ d.isDigit then
      some (digitsToNat [a, b, c, d], r)
    else none
  | _ => none

def parseIsoZone : List Char → Option (Option IsoZone)
  | [] => some none
  | ['Z'] => some (some .utc)
  | c :: r =>
    if c = '+' ∨ c = '-' then
      match take2D r with
      | some (oh, r2) =>
        let r3 := match r2 with | ':' :: rr => rr | _ => r2
        match take2D r3 with
        | some (om, r4) => if r4 = [] then some (some (.off (c = '+') oh om)) else none
        | none => none
      | none => none
    else none

def parseIsoTime (l : List Char) : Option IsoTime := do
  let (hh, r1) ← take2D l
  match r1 with
  | ':' :: r2 => do
    let (mi, r3) ← take2D r2
    match r3 with
    | ':' :: r4 => do
      let (ss, r5) ← take2D r4
      let (fds, r6) :=
        match r5 with
        | '.' :: rr =>
          let (ds, rest) := takeDigits rr
          if ds = [] then (([] : List Char), r5) else (ds, rest)
        | _ => (([] : List Char), r5)
      -- the regex requires at least one digit after a dot; a bare dot fails
      match r5 with
      | '.' :: rr =>
        if (takeDigits rr).1 = [] then none
        else do
          let z ← parseIsoZone r6
          pure ⟨hh, mi, ss, fds, z⟩
      | _ => do
        let z ← parseIsoZone r6
        pure ⟨hh, mi, ss, fds, z⟩
    | _ => none
  | _ => none

/-- Syntactic match of the ISO regex
`^\d{4}-\d{2}-\d{2}(T\d{2}:\d{2}:\d{2}(\.\d+)?(Z|[+-]\d{2}:?\d{2})?)?$`. -/
def parseIsoShape (l : List Char) : Option IsoShape := do
  let (y, r1) ← take4D l
  match r1 with
  | '-' :: r2 => do
    let (mo, r3) ← take2D r2
    match r3 with
    | '-' :: r4 => do
      let (d, r5) ← take2D r4
      match r5 with
      | [] => pure ⟨y, mo, d, none⟩
      | 'T' :: r6 => do
        let t ← parseIsoTime r6
        pure ⟨y, mo, d, some t⟩
      | _ => none
    | _ => none
  | _ => none

def isLeapY (y : Int) : Bool := (y % 4 = 0 ∧ y % 100 ≠ 0) ∨ y % 400 = 0

def daysInMonth (y : Int) (m : Nat) : Nat :=
  match m with
  | 1 => 31 | 2 => if isLeapY y then 29 else 28 | 3 => 31 | 4 => 30
  | 5 => 31 | 6 => 30 | 7 => 31 | 8 => 31 | 9 => 30 | 10 => 31
  | 11 => 30 | 12 => 31 | _ => 0

/-- Days since 1970-01-01 of a proleptic Gregorian date (Hinnant's algorithm). -/
def daysFromCivil (y : Int) (m d : Int) : Int :=
  let yy := if m ≤ 2 then y - 1 else y
  let era := Int.fdiv yy 400
  let yoe := yy - era * 400
  let mp := Int.fmod (m + 9) 12
  let doy := Int.fdiv (153 * mp + 2) 5 + d - 1
  let doe := yoe * 365 + Int.fdiv yoe 4 - Int.fdiv yoe 100 + doy
  era * 146097 + doe - 719468

/-- Inverse of `daysFromCivil`: year, month, day from days since the epoch. -/
def civilFromDays (z0 : Int) : Int × Int × Int :=
  let z := z0 + 719468
  let era := Int.fdiv z 146097
  let doe := z - era * 146097
  let yoe := Int.fdiv (doe - Int.fdiv doe 1460 + Int.fdiv doe 36524 - Int.fdiv doe 146096) 365
  let y := yoe + era * 400
  let doy := doe - (365 * yoe + Int.fdiv yoe 4 - Int.fdiv yoe 100)
  let mp := Int.fdiv (5 * doy + 2) 153
  let d := doy - Int.fdiv (153 * mp + 2) 5 + 1
  let m := if mp < 10 then mp + 3 else mp - 9
  (if m ≤ 2 then y + 1 else y, m, d)

def pad2 (n : Nat) : String := if n < 10 then "0" ++ Nat.repr n else Nat.repr n

def pad3 (n : Nat) : String :=
  if n < 10 then "00" ++ Nat.repr n else if n < 100 then "0" ++ Nat.repr n else Nat.repr n

def pad4 (n : Nat) : String :=
  if n < 10 then "000" ++ Nat.repr n
  else if n < 100 then "00" ++ Nat.repr n
  else if n < 1000 then "0" ++ Nat.repr n
  else Nat.repr n

/-- JS `Date.prototype.toISOString` on an epoch-milliseconds value. -/
def toISOString (ms : Int) : String :=
  let day := Int.fdiv ms 86400000
  let rem := (Int.fmod ms 86400000).toNat
  let c := civilFromDays day
  let hh := rem / 3600000
  let mi := rem % 3600000 / 60000
  let ss := rem % 60000 / 1000
  let mss := rem % 1000
  pad4 c.1.toNat ++ "-" ++ pad2 c.2.1.toNat ++ "-" ++ pad2 c.2.2.toNat ++ "T" ++
    pad2 hh ++ ":" ++ pad2 mi ++ ":" ++ pad2 ss ++ "." ++ pad3 mss ++ "Z"

/-- Milliseconds denoted by the fraction digits of an ISO time: the first three
digits, right-padded with zeros (engines truncate beyond milliseconds). -/
def fracMs (ds : List Char) : Nat :=
  digitsToNat ((ds ++ ['0', '0', '0']).take 3)

/-- Semantic validation and epoch computation for a syntactically ISO date,
modelling the engine's ISO path: field ranges are checked, a date-only string
is UTC, and (model assumption) the local zone is UTC. -/
def jsDateFromIso (p : IsoShape) : Option Int :=
  if p.mo < 1 ∨ 12 < p.mo ∨ p.d < 1 ∨ daysInMonth p.y p.mo < p.d then none
  else
    let base := daysFromCivil p.y p.mo p.d * 86400000
    match p.time with
    | none => some base
    | some t =>
      let okTime : Bool :=
        (t.hh < 24 && t.mi ≤ 59 && t.ss ≤ 59) ||
          (t.hh = 24 && t.mi = 0 && t.ss = 0 && fracMs t.fracDs = 0)
      let okZone : Bool :=
        match t.zone with
        | some (.off _ oh om) => oh ≤ 23 && om ≤ 59
        | _ => true
      if okTime && okZone then
        let tms : Int := t.hh * 3600000 + t.mi * 60000 + t.ss * 1000 + fracMs t.fracDs
        let offMs : Int :=
          match t.zone with
          | some (.off pos oh om) =>
            (if pos then 1 else -1) * ((oh : Int) * 3600000 + om * 60000)
          | _ => 0
        some (base + tms - offMs)
      else none

/-- Syntactic match of `^\d{2}s\d{2}s\d{4}$` for a separator `s`, yielding the
three two-or-four digit fields. -/
def parseNNsNNsNNNN (sep : Char) (l : List Char) : Option (Nat × Nat × Nat) := do
  let (a, r1) ← take2D l
  match r1 with
  | c :: r2 =>
    if c = sep then do
      let (b, r3) ← take2D r2
      match r3 with
      | c2 :: r4 =>
        if c2 = sep then do
          let (y, r5) ← take4D r4
          if r5 = [] then pure (a, b, y) else none
        else none
      | _ => none
    else none
  | _ => none

/-- Syntactic match of `^\d{4}/\d{2}/\d{2}$`. -/
def parseYYYYsMMsDD (sep : Char) (l : List Char) : Option (Nat × Nat × Nat) := do
  let (y, r1) ← take4D l
  match r1 with
  | c :: r2 =>
    if c = sep then do
      let (m, r3) ← take2D r2
      match r3 with
      | c2 :: r4 =>
        if c2 = sep then do
          let (d, r5) ← take2D r4
          if r5 = [] then pure (y, m, d) else none
        else none
      | _ => none
    else none
  | _ => none

/-- Legacy month-first date (`MM/DD/YYYY`-style): midnight local time, with the
model identifying local time with UTC. -/
def jsDateFromMDY (m d y : Nat) : Option Int :=
  if 1 ≤ m ∧ m ≤ 12 ∧ 1 ≤ d ∧ d ≤ daysInMonth y m then
    some (daysFromCivil y m d * 86400000)
  else none

/-- Model of `new Date(s).getTime()` restricted to the string shapes the
repository's regexes let through: the ISO form first, then the legacy
month-first slash and dash forms and the year-first slash form. Everything
else is modelled as an invalid date. -/
def jsDateParse (s : String) : Option Int :=
  match parseIsoShape s.data with
  | some p => jsDateFromIso p
  | none =>
    match parseNNsNNsNNNN '/' s.data with
    | some (m, d, y) => jsDateFromMDY m d y
    | none =>
      match parseYYYYsMMsDD '/' s.data with
      | some (y, m, d) => jsDateFromMDY m d y
      | none =>
        match parseNNsNNsNNNN '-' s.data with
        | some (m, d, y) => jsDateFromMDY m d y
        | none => none

/-! ### JSON values, `JSON.parse`, `JSON.stringify` -/

inductive Json where
  | null
  | bool (b : Bool)
  | num (n : JsNum)
  | str (s : String)
  | arr (xs : List Json)
  | obj (flds : List (String × Json))

/-- JS object-key assignment: overwriting keeps the original key position,
a new key is appended. -/
def jsonObjSet (flds : List (String × Json)) (k : String) (v : Json) :
    List (String × Json) :=
  if flds.any (fun p => decide (p.1 = k)) then
    flds.map (fun p => if p.1 = k then (k, v) else p)
  else flds ++ [(k, v)]

def skipJsonWs (l : List Char) : List Char :=
  l.dropWhile (fun c => c = ' ' || c = '\t' || c = '\n' || c = '\r')

/-- Body of a JSON string after the opening quote; returns the decoded
characters and the remainder after the closing quote. -/
def pJsonStrAux : List Char → Option (List Char × List Char)
  | [] => none
  | '"' :: r => some ([], r)
  | '\\' :: e :: r =>
    if e = 'u' then
      match r with
      | a :: b :: c :: d :: r2 =>
        if isHexDigit a ∧ isHexDigit b ∧ isHexDigit c ∧ isHexDigit d then
          (pJsonStrAux r2).map (fun p => (Char.ofNat (hexToNat [a, b, c, d]) :: p.1, p.2))
        else none
      | _ => none
    else
      let dec : Option Char :=
        if e = '"' then some '"'
        else if e = '\\' then some '\\'
        else if e = '/' then some '/'
        else if e = 'b' then some '\x08'
        else if e = 'f' then some '\x0c'
        else if e = 'n' then some '\n'
        else if e = 'r' then some '\r'
        else if e = 't' then some '\t'
        else none
      match dec with
      | some c => (pJsonStrAux r).map (fun p => (c :: p.1, p.2))
      | none => none
  | c :: r =>
    if c.toNat < 32 then none
    else (pJsonStrAux r).map (fun p => (c :: p.1, p.2))

/-- JSON number grammar `-?(0|[1-9]\d*)(\.\d+)?([eE][+-]?\d+)?`. -/
def pJsonNum (l : List Char) : Option (JsNum × List Char) :=
  let (neg, l1) := match l with | '-' :: r => (true, r) | _ => (false, l)
  let ipart : Option (List Char × List Char) :=
    match l1 with
    | '0' :: r => some (['0'], r)
    | c :: r => if c.isDigit then some (c :: (takeDigits r).1, (takeDigits r).2) else none
    | [] => none
  match ipart with
  | none => none
  | some (intD, r1) =>
    let fpart : Option (List Char × List Char) :=
      match r1 with
      | '.' :: r =>
        let (ds, rest) := takeDigits r
        if ds = [] then none else some (ds, rest)
      | _ => some ([], r1)
    match fpart with
    | none => none
    | some (fracD, r2) =>
      let epart : Option (Int × List Char) :=
        match r2 with
        | 'e' :: r | 'E' :: r =>
          let (esign, r3) := match r with
            | '+' :: rr => ((1 : Int), rr)
            | '-' :: rr => ((-1 : Int), rr)
            | _ => ((1 : Int), r)
          let (ed, r4) := takeDigits r3
          if ed = [] then none else some (esign * digitsToNat ed, r4)
        | _ => some (0, r2)
      match epart with
      | none => none
      | some (e, r5) =>
        let man : Int := digitsToNat (intD ++ fracD)
        some (JsNum.make (if neg then -man else man) (e - (fracD.length : Int)), r5)

mutual

def pJsonVal : Nat → List Char → Option (Json × List Char)
  | 0, _ => none
  | fuel + 1, l =>
    match skipJsonWs l with
    | 'n' :: 'u' :: 'l' :: 'l' :: r => some (.null, r)
    | 't' :: 'r' :: 'u' :: 'e' :: r => some (.bool true, r)
    | 'f' :: 'a' :: 'l' :: 's' :: 'e' :: r => some (.bool false, r)
    | '"' :: r => (pJsonStrAux r).map (fun p => (.str (String.mk p.1), p.2))
    | '[' :: r =>
      (match skipJsonWs r with
       | ']' :: r2 => some (.arr [], r2)
       | _ => (pJsonElems fuel r).map (fun p => (.arr p.1, p.2)))
    | '{' :: r =>
      (match skipJsonWs r with
       | '}' :: r2 => some (.obj [], r2)
       | _ =>
         (pJsonMembers fuel r).map
           (fun p => (.obj (p.1.foldl (fun o kv => jsonObjSet o kv.1 kv.2) []), p.2)))
    | l2 => (pJsonNum l2).map (fun p => (.num p.1, p.2))

def pJsonElems : Nat → List Char → Option (List Json × List Char)
  | 0, _ => none
  | fuel + 1, l =>
    match pJsonVal fuel l with
    | none => none
    | some (v, r) =>
      match skipJsonWs r with
      | ',' :: r2 =>
        (pJsonElems fuel r2).map (fun p => (v :: p.1, p.2))
      | ']' :: r2 => some ([v], r2)
      | _ => none

def pJsonMembers : Nat → List Char → Option (List (String × Json) × List Char)
  | 0, _ => none
  | fuel + 1, l =>
    match skipJsonWs l with
    | '"' :: r =>
      match pJsonStrAux r with
      | none => none
      | some (k, r1) =>
        match skipJsonWs r1 with
        | ':' :: r2 =>
          match pJsonVal fuel r2 with
          | none => none
          | some (v, r3) =>
            match skipJsonWs r3 with
            | ',' :: r4 =>
              (pJsonMembers fuel r4).map (fun p => ((String.mk k, v) :: p.1, p.2))
            | '}' :: r4 => some ([(String.mk k, v)], r4)
            | _ => none
        | _ => none
    | _ => none

end

/-- Model of JS `JSON.parse`: parse one value and require only whitespace after
it; `none` models a thrown `SyntaxError`. -/
def jsonParse (s : String) : Option Json :=
  match pJsonVal (2 * s.data.length + 4) s.data with
  | some (v, r) => if skipJsonWs r = [] then some v else none
  | none => none

def hexDigitChar (n : Nat) : Char :=
  if n < 10 then Char.ofNat (48 + n) else Char.ofNat (87 + n)

def escJsonChar (c : Char) : List Char :=
  if c = '"' then ['\\', '"']
  else if c = '\\' then ['\\', '\\']
  else if c = '\x08' then ['\\', 'b']
  else if c = '\x0c' then ['\\', 'f']
  else if c = '\n' then ['\\', 'n']
  else if c = '\r' then ['\\', 'r']
  else if c = '\t' then ['\\', 't']
  else if c.toNat < 32 then
    ['\\', 'u', '0', '0', hexDigitChar (c.toNat / 16), hexDigitChar (c.toNat % 16)]
  else [c]

def jsonQuote (s : String) : String :=
  "\"" ++ String.mk (s.data.flatMap escJsonChar) ++ "\""

mutual

/-- Model of JS `JSON.stringify` (no spacing). -/
def stringify : Json → String
  | .null => "null"
  | .bool true => "true"
  | .bool false => "false"
  | .num n => n.toDec
  | .str s => jsonQuote s
  | .arr xs => "[" ++ stringifyItems xs ++ "]"
  | .obj fs => "\x7b" ++ stringifyFields fs ++ "\x7d"

def stringifyItems : List Json → String
  | [] => ""
  | [x] => stringify x
  | x :: y :: rest => stringify x ++ "," ++ stringifyItems (y :: rest)

def stringifyFields : List (String × Json) → String
  | [] => ""
  | [(k, v)] => jsonQuote k ++ ":" ++ stringify v
  | (k, v) :: p :: rest =>
    jsonQuote k ++ ":" ++ stringify v ++ "," ++ stringifyFields (p :: rest)

end

/-! ### Shared parse-result data model (src/types.ts) -/

inductive ErrKind where
  | malformed_row
  | column_mismatch
  | empty_table
  | invalid_separator
  | format_error
deriving DecidableEq, Repr

structure ParseError where
  type : ErrKind
  message : String
  line : Option Nat
  rawContent : Option String
  suggestion : Option String
deriving DecidableEq, Repr

/-- Typed cell values flowing out of type inference. JS `undefined` is
represented as an absent key / `Option.none`, never as a `JsValue`. -/
inductive JsValue where
  | null
  | bool (b : Bool)
  | num (n : JsNum)
  | infVal (pos : Bool)
  | str (s : String)
deriving DecidableEq, Repr

/-- A row object: insertion-ordered keys, JS assignment semantics. -/
abbrev Row := List (String × JsValue)

def objSet (row : Row) (k : String) (v : JsValue) : Row :=
  if row.any (fun p => decide (p.1 = k)) then
    row.map (fun p => if p.1 = k then (k, v) else p)
  else row ++ [(k, v)]

def objGet (row : Row) (k : String) : Option JsValue :=
  (row.find? (fun p => decide (p.1 = k))).map (fun p => p.2)

structure TableMeta where
  rowCount : Nat
  columnCount : Nat
  hasSeparatorRow : Bool
  formatDetected : String
  sampleValues : List (String × List JsValue)
deriving DecidableEq, Repr

structure ParseResult where
  headers : List String
  rows : List Row
  errors : List ParseError
  metadata : TableMeta
deriving DecidableEq, Repr

/-! ### `CsvParser` (src/lib/parsers/csvParser.ts, lines 3–198) -/

namespace Csv

/-- `detectDelimiter`: counts of the four candidate delimiters on the first
line of the (already trimmed) input; on a tie `Math.max` equals several counts
and the checks run in the order tab, pipe, semicolon, comma. -/
def detectDelimiter (input : String) : Char :=
  let fl := (splitOnChar '\n' input.data).headD []
  let commas := countChar ',' fl
  let tabs := countChar '\t' fl
  let pipes := countChar '|' fl
  let semis := countChar ';' fl
  let mx := max (max commas tabs) (max pipes semis)
  if mx = 0 then ','
  else if mx = tabs then '\t'
  else if mx = pipes then '|'
  else if mx = semis then ';'
  else ','

/-- The single-pass scanner of `parseLine`: CSV quote state with `""` escapes,
and two signed depth counters for `[ ]` and `{ }` (JS counters can go
negative, hence `Int`). The fuel argument only serves structural recursion
(each step consumes at least one character, and `parseLine` supplies the line
length as fuel, so the fuel case is never reached). -/
def parseLineAux (d : Char) : Nat → Bool → Int → Int → List Char → List Char → List (List Char)
  | _, _, _, _, cur, [] => [cur.reverse]
  | 0, _, _, _, cur, _ => [cur.reverse]
  | fuel + 1, iq, bd, br, cur, c :: rest =>
    if c = '"' ∧ bd = 0 ∧ br = 0 then
      if iq ∧ rest.head? = some '"' then parseLineAux d fuel iq bd br ('"' :: cur) rest.tail
      else parseLineAux d fuel (!iq) bd br cur rest
    else if c = '[' ∧ iq = false then parseLineAux d fuel iq (bd + 1) br (c :: cur) rest
    else if c = ']' ∧ iq = false then parseLineAux d fuel iq (bd - 1) br (c :: cur) rest
    else if c = '{' ∧ iq = false then parseLineAux d fuel iq bd (br + 1) (c :: cur) rest
    else if c = '}' ∧ iq = false then parseLineAux d fuel iq bd (br - 1) (c :: cur) rest
    else if c = d ∧ iq = false ∧ bd = 0 ∧ br = 0 then
      cur.reverse :: parseLineAux d fuel iq bd br [] rest
    else parseLineAux d fuel iq bd br (c :: cur) rest

def parseLine (d : Char) (line : String) : List String :=
  (parseLineAux d line.data.length false 0 0 [] line.data).map String.mk

def inferType (value : String) : JsValue :=
  if value = "" then .null
  else
    let n := jsStringToNumber value
    if n ≠ .nan ∧ jsTrim value ≠ "" then
      match n with
      | .fin v => .num v
      | .inf p => .infVal p
      | .nan => .null
    else
      let lower := jsTrim (jsLower value)
      if lower = "true" then .bool true
      else if lower = "false" then .bool false
      else .str value

def createRowObject (headers : List String) (values : List String) : Row :=
  headers.enum.foldl (fun row p => objSet row p.2 (inferType (values.getD p.1 ""))) []

def adjustRow (values : List String) (expected : Nat) : List String :=
  if values.length > expected then values.take expected
  else values ++ List.replicate (expected - values.length) ""

def getSampleValues (rows : List Row) (headers : List String) : List (String × List JsValue) :=
  headers.map (fun h =>
    (h, (((rows.take 3).filterMap (fun r => objGet r h)).filter
      (fun v => v ≠ .null ∧ v ≠ .str ""))))

def createEmptyResult (t : ErrKind) (message : String) : ParseResult :=
  ⟨[], [], [⟨t, message, none, none, none⟩], ⟨0, 0, false, "csv", []⟩⟩

def mismatchErr (i vals hdrs : Nat) (line : String) : ParseError :=
  ⟨.column_mismatch,
   "Row " ++ Nat.repr i ++ " has " ++ Nat.repr vals ++ " columns, expected " ++ Nat.repr hdrs,
   some (i + 1), some line, some "Check for unescaped delimiters or missing values"⟩

/-- The data-row loop of `parse` (`for i = 1; i < lines.length`), with `i` the
index of the current line. -/
def parseRowsAux (d : Char) (headers : List String) : Nat → List String → List Row × List ParseError
  | _, [] => ([], [])
  | i, line :: rest =>
    let values := parseLine d line
    let (rows, errs) := parseRowsAux d headers (i + 1) rest
    if values.length ≠ headers.length then
      (createRowObject headers (adjustRow values headers.length) :: rows,
       mismatchErr i values.length headers.length line :: errs)
    else (createRowObject headers values :: rows, errs)

def parseFromLines (d : Char) (lines : List String) : ParseResult :=
  match lines with
  | [] => createEmptyResult .empty_table "Input contains no data"
  | hd :: dataLines =>
    let headers := parseLine d hd
    if headers.length = 0 then createEmptyResult .format_error "Could not parse headers"
    else
      let (rows, errs) := parseRowsAux d headers 1 dataLines
      ⟨headers, rows, errs,
       ⟨rows.length, headers.length, false, "csv", getSampleValues rows headers⟩⟩

/-- `CsvParser`: the constructor trims the input and detects the delimiter;
`parse()` splits on `/\r?\n/`, drops blank lines, and parses header and rows. -/
def parse (input : String) : ParseResult :=
  let rawInput := jsTrim input
  if rawInput = "" then createEmptyResult .empty_table "Input is empty"
  else
    let d := detectDelimiter rawInput
    let lines := ((splitLinesCRLF rawInput.data).filter (fun l => !isBlankL l)).map String.mk
    parseFromLines d lines

end Csv

/-! ### `MarkdownTableParser`, first revision (src/lib/parsers/markdownParser.ts)

This file declares its own `ParseResult` whose error union has no
`format_error` and whose metadata has no `sampleValues`; it is embedded with
its own result type. -/

namespace MarkdownA

structure Meta where
  rowCount : Nat
  columnCount : Nat
  hasSeparatorRow : Bool
  formatDetected : String
deriving DecidableEq, Repr

structure Result where
  headers : List String
  rows : List Row
  errors : List ParseError
  metadata : Meta
deriving DecidableEq, Repr

/-- Constructor: `input.trim().split('\n').map(line => line.trim())`. -/
def linesOf (input : String) : List String :=
  (splitOnChar '\n' (jsTrim input).data).map (fun l => String.mk (jsTrimL l))

def detectFormat (lines : List String) : String :=
  match lines with
  | [] => "minimal"
  | firstLine :: rest =>
    if jsIncludes firstLine "+" ∧ jsIncludes firstLine "-" then "grid"
    else if jsIncludes firstLine "|" then
      match rest with
      | secondLine :: _ =>
        if jsIncludes secondLine "|" ∧ jsIncludes secondLine "-" then "pipe" else "minimal"
      | [] => "minimal"
    else "minimal"

/-- `^[-: ]+$` on a cell. -/
def sepCellPat (l : List Char) : Bool :=
  !l.isEmpty && l.all (fun c => c = '-' || c = ':' || c = ' ')

/-- `value.match(/^\d{4}-\d{2}-\d{2}/)`: the ISO date pattern anchored at the
start of the string only. -/
def isoDatePre : List Char → Bool
  | a :: b :: c :: d :: '-' :: e :: f :: '-' :: g :: h :: _ =>
    a.isDigit && b.isDigit && c.isDigit && d.isDigit && e.isDigit &&
      f.isDigit && g.isDigit && h.isDigit
  | _ => false

/-- `isSeparatorRow`: the line contains `|` and, split on `|` (outer pipes not
stripped in this revision), every trimmed cell is empty or matches `^[-: ]+$`. -/
def isSeparatorRow (line : String) : Bool :=
  jsIncludes line "|" &&
    ((splitOnChar '|' (jsTrim line).data).map jsTrimL).all
      (fun cell => cell.isEmpty || sepCellPat cell)

/-- `trimmed.replace(/\\\|/g, '|')`: left-to-right non-overlapping rewrite. -/
def replaceEscPipe : List Char → List Char
  | [] => []
  | '\\' :: '|' :: r => '|' :: replaceEscPipe r
  | c :: r => c :: replaceEscPipe r

/-- `^[-:|]+$` (the separator-artifact cell pattern of this revision). -/
def pureSepPipe (l : List Char) : Bool :=
  !l.isEmpty && l.all (fun c => c = '-' || c = ':' || c = '|')

/-- `parsePipeLine`: strip one leading and one trailing pipe, split on `|`,
trim (and unescape `\|` inside) each cell, then drop cells that match
`^[-:|]+$` and contain a dash. -/
def parsePipeLine (line : String) : List String :=
  let clean0 := jsTrimL line.data
  let clean1 := match clean0 with | '|' :: r => r | _ => clean0
  let clean2 :=
    if clean1.getLast? = some '|' then clean1.dropLast else clean1
  let cells := (splitOnChar '|' clean2).map (fun cell =>
    let t := jsTrimL cell
    if containsSub ['\\', '|'] t then replaceEscPipe t else t)
  (cells.filter (fun cell => !(pureSepPipe cell && cell.contains '-'))).map String.mk

def inferType (value : String) : JsValue :=
  if value = "" then .null
  else
    let n := jsStringToNumber value
    if n ≠ .nan ∧ jsTrim value ≠ "" then
      match n with
      | .fin v => .num v
      | .inf p => .infVal p
      | .nan => .null
    else
      let lowerValue := jsLower value
      if lowerValue = "true" then .bool true
      else if lowerValue = "false" then .bool false
      else
        match jsDateParse value with
        | some ms => if isoDatePre value.data then .str (toISOString ms) else .str value
        | none => .str value

def createRowObject (headers : List String) (values : List String) : Row :=
  headers.enum.foldl (fun row p => objSet row p.2 (inferType (values.getD p.1 ""))) []

def adjustRowToHeaders (rowValues : List String) (expectedLength : Nat) : List String :=
  if rowValues.length > expectedLength then rowValues.take expectedLength
  else rowValues ++ List.replicate (expectedLength - rowValues.length) ""

/-- Index of the first separator row at or after position `i`. -/
def findSepFrom : List String → Nat → Option Nat
  | [], _ => none
  | l :: rest, i => if isSeparatorRow l then some i else findSepFrom rest (i + 1)

def mismatchErr (rowNo vals hdrs lineIdx : Nat) (line : String) : ParseError :=
  ⟨.column_mismatch,
   "Row " ++ Nat.repr rowNo ++ " has " ++ Nat.repr vals ++ " columns, expected " ++
     Nat.repr hdrs,
   some (lineIdx + 1), some line,
   some (if vals > hdrs then "Too many columns - check for extra pipe characters"
         else "Too few columns - check for missing values")⟩

/-- The data-row loop (`for i = separatorIndex + 1; ...`): skip blank lines and
extra separator rows, tokenize, and on a column-count mismatch record one
error and truncate or pad. `i` is the line index, `sepIdx` the separator
index used for the 1-based row number `i - sepIdx`. -/
def dataRowsAux (headers : List String) (sepIdx : Nat) :
    Nat → List String → List Row × List ParseError
  | _, [] => ([], [])
  | i, line :: rest =>
    if jsTrim line = "" then dataRowsAux headers sepIdx (i + 1) rest
    else if isSeparatorRow line then dataRowsAux headers sepIdx (i + 1) rest
    else
      let rowValues := parsePipeLine line
      let (rows, errs) := dataRowsAux headers sepIdx (i + 1) rest
      if rowValues.length ≠ headers.length then
        (createRowObject headers (adjustRowToHeaders rowValues headers.length) :: rows,
         mismatchErr (i - sepIdx) rowValues.length headers.length i line :: errs)
      else (createRowObject headers rowValues :: rows, errs)

def parsePipeTable (lines : List String) : Result :=
  let sep0 := findSepFrom lines 0
  let errs0 : List ParseError :=
    match sep0 with
    | some _ => []
    | none => [⟨.invalid_separator, "No separator row found (expected a row with |---|)",
                none, none,
                some "Add a separator row with dashes between header and data"⟩]
  let sepIdx := sep0.getD 1
  -- `this.lines[separatorIndex - 1] || this.lines[0]` (empty string is falsy)
  let headerLine :=
    match lines.get? (sepIdx - 1) with
    | some h => if h = "" then lines.headD "" else h
    | none => lines.headD ""
  let headers := parsePipeLine headerLine
  let errsSep : List ParseError :=
    if 0 < sepIdx ∧ sepIdx < lines.length then
      let sepCols := (parsePipeLine (lines.getD sepIdx "")).filter
        (fun col => col ≠ "" ∧ !pureSepPipe col.data)
      if 0 < sepCols.length ∧ sepCols.length ≠ headers.length then
        [⟨.column_mismatch,
          "Separator row has " ++ Nat.repr sepCols.length ++
            " columns, but header has " ++ Nat.repr headers.length,
          some (sepIdx + 1), none,
          some "Ensure separator row matches header column count"⟩]
      else []
    else []
  let (rows, errs2) := dataRowsAux headers sepIdx (sepIdx + 1) (lines.drop (sepIdx + 1))
  ⟨headers, rows, errs0 ++ errsSep ++ errs2,
   ⟨rows.length, headers.length, sepIdx > 0, "pipe"⟩⟩

def parseGridTable : Result :=
  ⟨[], [], [⟨.malformed_row, "Grid tables not yet supported", none, none, none⟩],
   ⟨0, 0, false, "grid"⟩⟩

def parseMinimalTable : Result :=
  ⟨[], [], [⟨.malformed_row, "Minimal tables not yet supported", none, none, none⟩],
   ⟨0, 0, false, "minimal"⟩⟩

/-- `parse()`: the empty-lines guard is unreachable (`split` never yields an
empty array) and the `try/catch` wrapper is a no-op in this total embedding. -/
def parse (input : String) : Result :=
  let lines := linesOf input
  if lines.length = 0 then
    ⟨[], [], [⟨.empty_table, "Input is empty", none, none, none⟩], ⟨0, 0, false, "pipe"⟩⟩
  else
    let fmt := detectFormat lines
    if fmt = "pipe" then parsePipeTable lines
    else if fmt = "grid" then parseGridTable
    else if fmt = "minimal" then parseMinimalTable
    else parsePipeTable lines

end MarkdownA

/-! ### `MarkdownTableParser`, second revision (src/lib/parsers/csvParser.ts,
lines 201–512): uses the shared `ParseResult` with `format_error` available
and `sampleValues` in the metadata. -/

namespace MarkdownB

def linesOf (input : String) : List String :=
  (splitOnChar '\n' (jsTrim input).data).map (fun l => String.mk (jsTrimL l))

def detectFormat (lines : List String) : String :=
  if lines.length < 2 then "unknown"
  else
    match lines with
    | [] => "unknown"
    | firstLine :: rest =>
      if jsIncludes firstLine "+" ∧ firstLine.data.any (fun c => c = '-' || c = '+') then
        "grid"
      else if jsIncludes firstLine "|" then
        match rest with
        | secondLine :: _ =>
          if jsIncludes secondLine "|" ∧
              (jsIncludes secondLine "-" ∨ jsIncludes secondLine ":") then "pipe"
          else "minimal"
        | [] => "minimal"
      else "unknown"

/-- `cleanLine.replace(/\\\|/g, marker)` and back: generic left-to-right
non-overlapping substring replacement (with fuel, consumed one character per
step). -/
def replaceSubAux (pat rep : List Char) : Nat → List Char → List Char
  | 0, l => l
  | _ + 1, [] => []
  | fuel + 1, c :: cs =>
    if pat ≠ [] ∧ isPrefixL pat (c :: cs) then
      rep ++ replaceSubAux pat rep fuel ((c :: cs).drop pat.length)
    else c :: replaceSubAux pat rep fuel cs

def replaceSub (pat rep l : List Char) : List Char :=
  replaceSubAux pat rep l.length l

def tempMarker : List Char := ("___PIPE___").data

/-- `parsePipeLine`: strip one leading and one trailing pipe, protect `\|` with
a marker, split on `|`, restore and trim each cell, then drop cells matching
`^[-: ]+$`. -/
def parsePipeLine (line : String) : List String :=
  let clean0 := jsTrimL line.data
  let clean1 := match clean0 with | '|' :: r => r | _ => clean0
  let clean2 := if clean1.getLast? = some '|' then clean1.dropLast else clean1
  let escaped := replaceSub ['\\', '|'] tempMarker clean2
  let cells := (splitOnChar '|' escaped).map (fun cell =>
    jsTrimL (replaceSub tempMarker ['|'] cell))
  (cells.filter (fun cell => !MarkdownA.sepCellPat cell)).map String.mk

/-- `isSeparatorRow`: strip one leading and one trailing pipe, split on `|`,
and require every trimmed cell to be empty or match `^[-: ]+$`. -/
def isSeparatorRow (line : String) : Bool :=
  jsIncludes line "|" &&
    (let clean0 := jsTrimL line.data
     let clean1 := match clean0 with | '|' :: r => r | _ => clean0
     let clean2 := if clean1.getLast? = some '|' then clean1.dropLast else clean1
     ((splitOnChar '|' clean2).map jsTrimL).all
       (fun cell => cell.isEmpty || MarkdownA.sepCellPat cell))

/-- `^-?\d+$`. -/
def intRe (l : List Char) : Bool :=
  match l with
  | '-' :: r => !r.isEmpty && r.all Char.isDigit
  | _ => !l.isEmpty && l.all Char.isDigit

/-- `^-?\d+\.\d+$`. -/
def floatRe (l : List Char) : Bool :=
  let body := match l with | '-' :: r => r | _ => l
  let (d1, r1) := takeDigits body
  match r1 with
  | '.' :: r2 => !d1.isEmpty && !r2.isEmpty && r2.all Char.isDigit
  | _ => false

/-- Value of a `^-?\d+$` literal (`parseInt(trimmed, 10)`). -/
def intLitVal (l : List Char) : JsNum :=
  match l with
  | '-' :: r => JsNum.make (-(digitsToNat r : Int)) 0
  | _ => JsNum.make (digitsToNat l) 0

/-- Value of a `^-?\d+\.\d+$` literal (`parseFloat(trimmed)`). -/
def floatLitVal (l : List Char) : JsNum :=
  let (neg, body) := match l with | '-' :: r => (true, r) | _ => (false, l)
  let (d1, r1) := takeDigits body
  let d2 := match r1 with | '.' :: r2 => r2 | _ => []
  let man : Int := digitsToNat (d1 ++ d2)
  JsNum.make (if neg then -man else man) (-(d2.length : Int))

/-- The legacy-format loop of `inferType`: the three patterns are mutually
exclusive, so the loop is equivalent to one guarded `new Date` attempt. -/
def legacyDates (t value : String) : JsValue :=
  if (parseNNsNNsNNNN '/' t.data).isSome ∨ (parseYYYYsMMsDD '/' t.data).isSome ∨
      (parseNNsNNsNNNN '-' t.data).isSome then
    match jsDateParse t with
    | some ms => .str (toISOString ms)
    | none => .str value
  else .str value

def inferType (value : String) : JsValue :=
  if value = "" then .null
  else
    let t := jsTrim value
    if jsLower t = "true" then .bool true
    else if jsLower t = "false" then .bool false
    else if intRe t.data then .num (intLitVal t.data)
    else if floatRe t.data then .num (floatLitVal t.data)
    else
      match parseIsoShape t.data with
      | some p =>
        (match jsDateFromIso p with
         | some ms => .str (toISOString ms)
         | none => legacyDates t value)
      | none => legacyDates t value

def createRowObject (headers : List String) (values : List String) : Row :=
  headers.enum.foldl (fun row p => objSet row p.2 (inferType (values.getD p.1 ""))) []

def adjustRowToHeaders (rowValues : List String) (expectedLength : Nat) : List String :=
  if rowValues.length > expectedLength then rowValues.take expectedLength
  else rowValues ++ List.replicate (expectedLength - rowValues.length) ""

def getSampleValues (rows : List Row) (headers : List String) :
    List (String × List JsValue) :=
  headers.map (fun h =>
    (h, ((rows.take 3).filterMap (fun r => objGet r h)).filter
      (fun v => v ≠ .null ∧ v ≠ .str "")))

def findSepFrom : List String → Nat → Option Nat
  | [], _ => none
  | l :: rest, i => if isSeparatorRow l then some i else findSepFrom rest (i + 1)

def mismatchErr (rowNo vals hdrs lineIdx : Nat) (line : String) : ParseError :=
  ⟨.column_mismatch,
   "Row " ++ Nat.repr rowNo ++ " has " ++ Nat.repr vals ++ " columns, expected " ++
     Nat.repr hdrs,
   some (lineIdx + 1), some line,
   some (if vals > hdrs then "Too many columns - check for extra pipe characters"
         else "Too few columns - check for missing values")⟩

/-- Data-row loop (`for i = dataStartIndex; ...`); the 1-based row number in
the message is `i - dataStartIndex + 1 = i - sepIdx`. -/
def dataRowsAux (headers : List String) (sepIdx : Nat) :
    Nat → List String → List Row × List ParseError
  | _, [] => ([], [])
  | i, line :: rest =>
    if jsTrim line = "" then dataRowsAux headers sepIdx (i + 1) rest
    else if isSeparatorRow line then dataRowsAux headers sepIdx (i + 1) rest
    else
      let rowValues := parsePipeLine line
      let (rows, errs) := dataRowsAux headers sepIdx (i + 1) rest
      if rowValues.length ≠ headers.length then
        (createRowObject headers (adjustRowToHeaders rowValues headers.length) :: rows,
         mismatchErr (i - sepIdx) rowValues.length headers.length i line :: errs)
      else (createRowObject headers rowValues :: rows, errs)

def createResult (headers : List String) (rows : List Row) (errors : List ParseError)
    (fmt : String) (hasSep : Bool) : ParseResult :=
  ⟨headers, rows, errors,
   ⟨rows.length, headers.length, hasSep, fmt, getSampleValues rows headers⟩⟩

def createEmptyResult (t : ErrKind) (message fmt : String) : ParseResult :=
  ⟨[], [], [⟨t, message, none, none, none⟩], ⟨0, 0, false, fmt, []⟩⟩

def parsePipeTable (lines : List String) : ParseResult :=
  let sep0 := findSepFrom (lines.drop 1) 1
  let errs0 : List ParseError :=
    match sep0 with
    | some _ => []
    | none => [⟨.invalid_separator, "No separator row found (expected a row with |---|)",
                none, none,
                some "Add a separator row with dashes between header and data"⟩]
  let sepIdx := sep0.getD 0
  let headerLine := if sepIdx > 0 then lines.getD (sepIdx - 1) "" else lines.headD ""
  let headers := parsePipeLine headerLine
  if headers.length = 0 then
    createResult headers []
      (errs0 ++ [⟨.malformed_row, "No valid headers found",
                  some (if sepIdx > 0 then sepIdx else 1), none,
                  some "Check that your header row has proper pipe characters"⟩])
      "pipe" false
  else
    let (rows, errs2) := dataRowsAux headers sepIdx (sepIdx + 1) (lines.drop (sepIdx + 1))
    createResult headers rows (errs0 ++ errs2) "pipe" (sepIdx > 0)

def parseGridTable : ParseResult :=
  createEmptyResult .format_error "Grid tables are not yet supported" "grid"

def parseMinimalTable : ParseResult :=
  createEmptyResult .format_error "Minimal tables are not yet supported" "minimal"

/-- `parse()`: dispatch on the detected sub-format; the `catch` branch is
unreachable in this total embedding. -/
def parse (input : String) : ParseResult :=
  let lines := linesOf input
  if lines.length = 0 then createEmptyResult .empty_table "Input is empty" "unknown"
  else
    let fmt := detectFormat lines
    if fmt = "pipe" then parsePipeTable lines
    else if fmt = "grid" then parseGridTable
    else if fmt = "minimal" then parseMinimalTable
    else createEmptyResult .format_error "Unsupported markdown table format" "unknown"

end MarkdownB

/-! ### `JsonParser` (src/lib/parsers/markdownParser.ts, lines 304–520) -/

namespace JsonP

/-- `inferType`: the ISO-regex branch returns the string unchanged in both
arms, arrays and objects are serialised with `JSON.stringify`, primitives pass
through. -/
def inferType (value : Json) : JsValue :=
  match value with
  | .null => .null
  | .str s => .str s
  | .arr xs => .str (stringify (.arr xs))
  | .obj fs => .str (stringify (.obj fs))
  | .bool b => .bool b
  | .num n => .num n

/-- `Object.keys`-style entries of a JS value (objects and arrays; arrays
expose their indices as keys). Integer-like object keys keep their textual
insertion order in this model. -/
def entriesOf : Json → List (String × Json)
  | .obj fs => fs
  | .arr xs => xs.enum.map (fun p => (Nat.repr p.1, p.2))
  | _ => []

mutual

/-- `collectKeys(obj, prefix, keys)` flattened to the list of keys it adds, in
insertion order: recurse into non-array objects, record the dotted path at
every other kind of value. -/
def collectKeysVal (fullKey : String) : Json → List String
  | .obj fs => collectKeysFields fullKey fs
  | _ => [fullKey]

def collectKeysFields (pre : String) : List (String × Json) → List String
  | [] => []
  | (k, v) :: rest =>
    collectKeysVal (if pre = "" then k else pre ++ "." ++ k) v ++ collectKeysFields pre rest

end

def collectKeys (pre : String) (row : Json) : List String :=
  collectKeysFields pre (entriesOf row)

def dedupAux (seen : List String) : List String → List String
  | [] => []
  | x :: xs =>
    if seen.any (fun y => decide (y = x)) then dedupAux seen xs
    else x :: dedupAux (x :: seen) xs

/-- Insertion-ordered deduplication: the `Set` in `extractHeaders`. -/
def dedupKeepFirst (l : List String) : List String := dedupAux [] l

/-- `extractHeaders`: all keys of all object-typed rows, deduplicated, sorted. -/
def extractHeaders (parsedData : List Json) : List String :=
  if parsedData.length = 0 then []
  else
    sortStrs (dedupKeepFirst (parsedData.flatMap (fun row =>
      match row with
      | .obj _ => collectKeys "" row
      | .arr _ => collectKeys "" row
      | _ => [])))

/-- One step of `current = current[part]` on an object or array (arrays accept
canonical indices and `length`). -/
def getPart (j : Json) (part : String) : Option Json :=
  match j with
  | .obj fs => (fs.find? (fun p => decide (p.1 = part))).map (fun p => p.2)
  | .arr xs =>
    if part = "length" then some (.num (JsNum.make xs.length 0))
    else if part ≠ "" ∧ part.data.all Char.isDigit ∧
        (part = "0" ∨ part.data.head? ≠ some '0') then
      xs.get? (digitsToNat part.data)
    else none
  | _ => none

def pathLoop : Json → List String → Option Json
  | cur, [] => some cur
  | cur, part :: rest =>
    match cur with
    | .obj fs =>
      (match getPart (.obj fs) part with
       | some nxt => pathLoop nxt rest
       | none => none)
    | .arr xs =>
      (match getPart (.arr xs) part with
       | some nxt => pathLoop nxt rest
       | none => none)
    | _ => none

/-- `getValueByPath`: dotted-path traversal; `none` is JS `undefined`. -/
def getValueByPath (row : Json) (path : String) : Option Json :=
  match row with
  | .obj _ => pathLoop row ((splitOnChar '.' path.data).map String.mk)
  | .arr _ => pathLoop row ((splitOnChar '.' path.data).map String.mk)
  | _ => none

def normalizeRow (row : Json) (headers : List String) : Row :=
  headers.foldl (fun acc h =>
    objSet acc h (match getValueByPath row h with
      | none => .null
      | some v => inferType v)) []

def ndjsonAux : Nat → List String → List Json × List ParseError
  | _, [] => ([], [])
  | idx, line :: rest =>
    let (rows, errs) := ndjsonAux (idx + 1) rest
    match jsonParse line with
    | some v =>
      match v with
      | .obj fs => ((Json.obj fs) :: rows, errs)
      | .arr xs => ((Json.arr xs) :: rows, errs)
      | _ =>
        (rows, ⟨.malformed_row, "Line " ++ Nat.repr (idx + 1) ++ " is not a valid JSON object",
                some (idx + 1), some line, none⟩ :: errs)
    | none =>
      (rows, ⟨.format_error, "Invalid JSON on line " ++ Nat.repr (idx + 1),
              some (idx + 1), some line, none⟩ :: errs)

/-- `parseNDJSON`: per-line parses with per-line diagnostics; if no line
yielded a row, the errors are kept only when every line failed (which is
always the case then, as each line contributes either a row or an error). -/
def parseNDJSON (rawInput : String) : List Json × List ParseError :=
  let lines := ((splitOnChar '\n' rawInput.data).map String.mk).filter
    (fun l => jsTrim l ≠ "")
  let (rows, errs) := ndjsonAux 0 lines
  if rows.length > 0 then (rows, errs)
  else if errs.length = lines.length then ([], errs)
  else ([], [])

/-- `parseInput`: whole-input `JSON.parse` first (array of rows, or one object
as a single row), NDJSON fallback when the input contains a newline. The
engine-specific `e.message` text is modelled by a fixed placeholder. -/
def parseInput (rawInput : String) : List Json × List ParseError :=
  if rawInput = "" then ([], [])
  else
    match jsonParse rawInput with
    | some (.arr xs) => (xs, [])
    | some (.obj fs) => ([.obj fs], [])
    | some _ =>
      ([], [⟨.format_error, "JSON input must be an array or an object", none, none,
             some "Ensure the input starts with [ or \x7b"⟩])
    | none =>
      if jsIncludes rawInput "\n" then parseNDJSON rawInput
      else
        ([], [⟨.format_error, "Invalid JSON: SyntaxError", none, none,
               some "Check for missing quotes, commas, or braces"⟩])

def getSampleValues (rows : List Row) (headers : List String) :
    List (String × List JsValue) :=
  headers.map (fun h =>
    (h, ((rows.take 3).filterMap (fun r => objGet r h)).filter
      (fun v => v ≠ .null ∧ v ≠ .str "")))

def parse (input : String) : ParseResult :=
  let rawInput := jsTrim input
  let pe := parseInput rawInput
  if pe.1.length = 0 ∧ pe.2.length = 0 then
    ⟨[], [], [⟨.empty_table, "Input is empty or invalid", none, none, none⟩],
     ⟨0, 0, false, "json", []⟩⟩
  else
    let headers := extractHeaders pe.1
    let rows := pe.1.map (fun row => normalizeRow row headers)
    ⟨headers, rows, pe.2,
     ⟨rows.length, headers.length, false, "json", getSampleValues rows headers⟩⟩

end JsonP

/-! ### `detectFormat` (src/lib/parsers/formatDetector.ts) -/

namespace Detect

inductive DataFormat where
  | markdown
  | json
  | csv
  | unknown
deriving DecidableEq, Repr

/-- `isMarkdownTable`: quick shape check, then a full parse by the
`markdownParser.ts` revision of `MarkdownTableParser`; accepted when headers
came back and no error is `malformed_row` or `empty_table`. -/
def isMarkdownTable (input : String) : Bool :=
  let lines := ((splitOnChar '\n' input.data).map String.mk).filter
    (fun l => jsTrim l ≠ "")
  if lines.length < 2 then false
  else
    match lines with
    | [] => false
    | firstLine :: _ =>
      if !(jsIncludes firstLine "|" || jsIncludes firstLine "+") then false
      else
        let result := MarkdownA.parse input
        decide (result.headers.length > 0) &&
          result.errors.all (fun e =>
            e.type ≠ ErrKind.malformed_row ∧ e.type ≠ ErrKind.empty_table)

/-- `isJSON`: strict whole-input parse to an array or object, with the
all-or-nothing NDJSON fallback. -/
def isJSON (input : String) : Bool :=
  let trimmed := jsTrim input
  if !(startsWithL ['['] trimmed.data || startsWithL ['\x7b'] trimmed.data) then false
  else
    match jsonParse trimmed with
    | some (.arr _) => true
    | some (.obj _) => true
    | some _ => false
    | none =>
      if jsIncludes trimmed "\n" then
        let lines := ((splitOnChar '\n' trimmed.data).map String.mk).filter
          (fun l => jsTrim l ≠ "")
        lines.all (fun line => (jsonParse line).isSome) && decide (lines.length > 0)
      else false

/-- The delimiter pick of `isCSV`: `delimiters.sort((a, b) => b.count - a.count)`
is stable, so on tied counts the earliest of `,` `;` tab `|` wins. -/
def primaryDelim (firstLine : List Char) : Char × Nat :=
  let cms := countChar ',' firstLine
  let sms := countChar ';' firstLine
  let tbs := countChar '\t' firstLine
  let pps := countChar '|' firstLine
  let mx := max (max cms sms) (max tbs pps)
  if cms = mx then (',', cms)
  else if sms = mx then (';', sms)
  else if tbs = mx then ('\t', tbs)
  else ('|', pps)

/-- `isCSV`: the float comparison `consistentLines / lines.length > 0.8` is
modelled exactly as `5 * consistentLines > 4 * lines.length` (the two agree on
every realisable count). -/
def isCSV (input : String) : Bool :=
  let lines := ((splitOnChar '\n' input.data).map String.mk).filter
    (fun l => jsTrim l ≠ "")
  if lines.length < 2 then false
  else
    match lines with
    | [] => false
    | firstLine :: _ =>
      let pd := primaryDelim firstLine.data
      if pd.2 = 0 then false
      else
        let firstColCount := (splitOnChar pd.1 firstLine.data).length
        let consistentLines := (lines.filter (fun line =>
          (splitOnChar pd.1 line.data).length = firstColCount)).length
        decide (5 * consistentLines > 4 * lines.length) && decide (firstColCount > 1)

def detectFormat (input : String) : DataFormat :=
  let trimmed := jsTrim input
  if trimmed.data.length = 0 then .unknown
  else if isMarkdownTable trimmed then .markdown
  else if isJSON trimmed then .json
  else if isCSV trimmed then .csv
  else .unknown

end Detect

/-! ### `generateSql` / `formatValue` (src/lib/generators/sqlGenerator.ts) -/

namespace Sql

structure SmartLink where
  targetColumn : String
  foreignTable : String
  foreignKey : String
deriving DecidableEq, Repr

structure ColumnInfo where
  dataType : String
deriving DecidableEq, Repr

structure MissingColumnValue where
  tableName : String
  columnName : String
  value : JsValue
  columnInfo : ColumnInfo
deriving DecidableEq, Repr

/-- Only the fields `generateSql` reads are modelled; `targetTable = none`
is JS `undefined`/`null` (unassigned). -/
structure ColumnMapping where
  source : String
  target : String
  targetTable : Option String
  isIgnored : Bool
  sourceType : Option String
  targetType : Option String
deriving DecidableEq, Repr

def jsValueToString (v : JsValue) : String :=
  match v with
  | .null => "null"
  | .bool true => "true"
  | .bool false => "false"
  | .num n => n.toDec
  | .infVal p => if p then "Infinity" else "-Infinity"
  | .str s => s

def jsValueToNumber (v : JsValue) : JsNumber :=
  match v with
  | .null => .fin ⟨0, 0⟩
  | .bool b => .fin ⟨if b then 1 else 0, 0⟩
  | .num n => .fin n
  | .infVal p => .inf p
  | .str s => jsStringToNumber s

/-- `value.replace(/'/g, "''")`. -/
def escQuotes (s : String) : String :=
  String.mk (s.data.flatMap (fun c => if c = '\'' then [c, c] else [c]))

/-- The best-effort repair of a bracketed value that is not valid JSON:
split the inner text on commas and double-quote every token that is not
already quoted (escaping embedded double quotes). -/
def jsonTypeRepair (s : String) : String :=
  let inner := (s.data.drop 1).dropLast
  let items := splitOnChar ',' inner
  let jsonItems := items.map (fun item =>
    let t := jsTrimL item
    if !(startsWithL ['"'] t || startsWithL ['\''] t) then
      ('"' :: t.flatMap (fun c => if c = '"' then ['\\', '"'] else [c])) ++ ['"']
    else t)
  String.mk ('[' :: (List.intercalate [','] jsonItems) ++ [']'])

def numericTypeHit (typeLower : String) : Bool :=
  jsIncludes typeLower "int" || jsIncludes typeLower "numeric" ||
    jsIncludes typeLower "float" || jsIncludes typeLower "double" ||
    jsIncludes typeLower "decimal" || jsIncludes typeLower "real"

def formatValue (value : Option JsValue) (ty : Option String) : String :=
  match value with
  | none => "NULL"
  | some .null => "NULL"
  | some v =>
    if v = .str "" ∨ v = .str "null" then "NULL"
    else
      let typeLower := jsLower (ty.getD "")
      let bracketStr : Bool :=
        match v with
        | .str s => startsWithL ['['] s.data && s.data.getLast? = some ']'
        | _ => false
      if (jsIncludes typeLower "json" || jsIncludes typeLower "[]") ∧ bracketStr then
        match v with
        | .str s =>
          (match jsonParse s with
           | some _ => "'" ++ escQuotes s ++ "'"
           | none => "'" ++ escQuotes (jsonTypeRepair s) ++ "'")
        | _ => "NULL"
      else if numericTypeHit typeLower then
        match jsValueToNumber v with
        | .nan => "NULL"
        | .fin n => n.toDec
        | .inf p => if p then "Infinity" else "-Infinity"
      else if jsIncludes typeLower "bool" then
        let s := jsLower (jsValueToString v)
        if s = "true" ∨ s = "1" ∨ s = "yes" ∨ s = "t" ∨ s = "y" then "true" else "false"
      else "'" ++ escQuotes (jsValueToString v) ++ "'"

def isTruthyTable (t : Option String) : Bool :=
  match t with
  | some s => s ≠ ""
  | none => false

def groupInsert (gs : List (String × List ColumnMapping)) (t : String)
    (m : ColumnMapping) : List (String × List ColumnMapping) :=
  if gs.any (fun g => decide (g.1 = t)) then
    gs.map (fun g => if g.1 = t then (t, g.2 ++ [m]) else g)
  else gs ++ [(t, [m])]

/-- `tableGroups`: a JS `Record` filled in mapping order; entries iterate in
key-insertion order (the table names in play are not integer-like). -/
def groupByTable (ms : List ColumnMapping) : List (String × List ColumnMapping) :=
  ms.foldl (fun gs m => groupInsert gs (m.targetTable.getD "") m) []

def mappedValue (smartLinks : List SmartLink) (row : Row) (m : ColumnMapping) : String :=
  match smartLinks.find? (fun l => decide (l.targetColumn = m.target)) with
  | some link =>
    let val := objGet row m.source
    if val = none ∨ val = some .null ∨ val = some (.str "") then "NULL"
    else
      let formattedVal := formatValue val (some "string")
      "(SELECT " ++ link.foreignKey ++ " FROM " ++ link.foreignTable ++ " WHERE " ++
        link.foreignKey ++ " = " ++ formattedVal ++ " LIMIT 1)"
  | none =>
    let ty :=
      match m.targetType with
      | some t => if t = "" then m.sourceType else some t
      | none => m.sourceType
    formatValue (objGet row m.source) ty

def tableBlock (data : ParseResult) (smartLinks : List SmartLink)
    (missingColumns : List MissingColumnValue) (tableName : String)
    (tableMappings : List ColumnMapping) : String :=
  let tableMissingCols := missingColumns.filter
    (fun mc => mc.tableName = tableName ∧ mc.value ≠ .null)
  let mappedColNames := tableMappings.map (fun m => "\"" ++ m.target ++ "\"")
  let missingColNames := tableMissingCols.map (fun mc => "\"" ++ mc.columnName ++ "\"")
  let allColumnNames := String.intercalate ", " (mappedColNames ++ missingColNames)
  let insPre := "INSERT INTO " ++ tableName ++ " (" ++ allColumnNames ++ ") VALUES"
  let values := data.rows.map (fun row =>
    let mappedValues := tableMappings.map (mappedValue smartLinks row)
    let missingValues := tableMissingCols.map
      (fun mc => formatValue (some mc.value) (some mc.columnInfo.dataType))
    "\n  (" ++ String.intercalate ", " (mappedValues ++ missingValues) ++ ")")
  insPre ++ String.intercalate "," values ++ ";"

/-- `generateSql` (the deprecated third parameter is unused in the source and
omitted here). -/
def generateSql (data : ParseResult) (mappings : List ColumnMapping)
    (smartLinks : Option (List SmartLink))
    (missingColumns : Option (List MissingColumnValue)) : String :=
  if data.rows.length = 0 ∨ mappings.length = 0 then ""
  else
    let activeMappings := mappings.filter (fun m => !m.isIgnored && isTruthyTable m.targetTable)
    if activeMappings.length = 0 then "-- No tables/columns selected for import"
    else
      let tableGroups := groupByTable activeMappings
      let sqlBlocks := tableGroups.map
        (fun g => tableBlock data (smartLinks.getD []) (missingColumns.getD []) g.1 g.2)
      String.intercalate "\n\n" sqlBlocks

end Sql

/-! ### General lemmas about the string primitives -/

theorem splitOnChar_ne_nil (d : Char) (l : List Char) : splitOnChar d l ≠ [] := by
  cases l with
  | nil => simp [splitOnChar]
  | cons c cs =>
    simp only [splitOnChar]
    split
    · simp
    · split <;> simp

theorem linesOfA_ne_nil (input : String) : MarkdownA.linesOf input ≠ [] := by
  simp only [MarkdownA.linesOf, ne_eq, List.map_eq_nil_iff]
  exact splitOnChar_ne_nil _ _

theorem linesOfB_ne_nil (input : String) : MarkdownB.linesOf input ≠ [] := by
  simp only [MarkdownB.linesOf, ne_eq, List.map_eq_nil_iff]
  exact splitOnChar_ne_nil _ _

/-! ### Claim C1 -/

/-- C1 counterexample: on a grid-format input, the `markdownParser.ts` revision
of `MarkdownTableParser` returns its single error with kind `malformed_row`,
not `format_error` as the claim states (its own `ParseError` union does not
even contain `format_error`). -/
theorem c1_counterexample :
    MarkdownA.detectFormat (MarkdownA.linesOf ("+---+---+\n| a | b |")) = "grid" ∧
    (MarkdownA.parse ("+---+---+\n| a | b |")).errors =
      [⟨ErrKind.malformed_row, "Grid tables not yet supported", none, none, none⟩] ∧
    ErrKind.malformed_row ≠ ErrKind.format_error := by
  refine ⟨by rfl, by rfl, by decide⟩

/-- C1 (amended): for every input classified as `grid` or `minimal`, both
revisions of `MarkdownTableParser.parse` return zero headers, zero rows and
exactly one error whose message names the unsupported sub-format; the error
kind is `format_error` in the `csvParser.ts` revision but `malformed_row` in
the `markdownParser.ts` revision. Neither path can throw (the embedding is
total and the dispatched results are constants). -/
theorem c1_grid_minimal (input : String) :
    (MarkdownA.detectFormat (MarkdownA.linesOf input) = "grid" →
      MarkdownA.parse input =
        ⟨[], [], [⟨ErrKind.malformed_row, "Grid tables not yet supported", none, none, none⟩],
         ⟨0, 0, false, "grid"⟩⟩) ∧
    (MarkdownA.detectFormat (MarkdownA.linesOf input) = "minimal" →
      MarkdownA.parse input =
        ⟨[], [], [⟨ErrKind.malformed_row, "Minimal tables not yet supported", none, none, none⟩],
         ⟨0, 0, false, "minimal"⟩⟩) ∧
    (MarkdownB.detectFormat (MarkdownB.linesOf input) = "grid" →
      MarkdownB.parse input =
        ⟨[], [], [⟨ErrKind.format_error, "Grid tables are not yet supported", none, none, none⟩],
         ⟨0, 0, false, "grid", []⟩⟩) ∧
    (MarkdownB.detectFormat (MarkdownB.linesOf input) = "minimal" →
      MarkdownB.parse input =
        ⟨[], [], [⟨ErrKind.format_error, "Minimal tables are not yet supported", none, none, none⟩],
         ⟨0, 0, false, "minimal", []⟩⟩) := by
  have ha := linesOfA_ne_nil input
  have hb := linesOfB_ne_nil input
  refine ⟨fun h => ?_, fun h => ?_, fun h => ?_, fun h => ?_⟩ <;>
    simp_all [MarkdownA.parse, MarkdownB.parse, List.length_eq_zero,
      MarkdownA.parseGridTable, MarkdownA.parseMinimalTable,
      MarkdownB.parseGridTable, MarkdownB.parseMinimalTable,
      MarkdownB.createEmptyResult]

/-- C1 witness: the amended theorem applied to concrete grid and minimal
inputs for both revisions. -/
theorem c1_witness :
    MarkdownA.parse ("+---+---+\n| a | b |") =
      ⟨[], [], [⟨ErrKind.malformed_row, "Grid tables not yet supported", none, none, none⟩],
       ⟨0, 0, false, "grid"⟩⟩ ∧
    MarkdownA.parse ("a b\nc d") =
      ⟨[], [], [⟨ErrKind.malformed_row, "Minimal tables not yet supported", none, none, none⟩],
       ⟨0, 0, false, "minimal"⟩⟩ ∧
    MarkdownB.parse ("+---+---+\n| a | b |") =
      ⟨[], [], [⟨ErrKind.format_error, "Grid tables are not yet supported", none, none, none⟩],
       ⟨0, 0, false, "grid", []⟩⟩ ∧
    MarkdownB.parse ("| a | b |\n| c | d |") =
      ⟨[], [], [⟨ErrKind.format_error, "Minimal tables are not yet supported", none, none, none⟩],
       ⟨0, 0, false, "minimal", []⟩⟩ :=
  ⟨(c1_grid_minimal ("+---+---+\n| a | b |")).1 (by rfl),
   (c1_grid_minimal ("a b\nc d")).2.1 (by rfl),
   (c1_grid_minimal ("+---+---+\n| a | b |")).2.2.1 (by rfl),
   (c1_grid_minimal ("| a | b |\n| c | d |")).2.2.2 (by rfl)⟩

/-! ### Claim C2 -/

/-- C2: in the `markdownParser.ts` revision, deleting the separator row from a
valid pipe table records the claimed single `invalid_separator` error and
keeps the headers, but — contrary to the claim, the spec, and the code's own
comment "Assume second line is data" — the fallback sets `separatorIndex` to 1
and starts data at line 2, so the first data row is dropped, and
`hasSeparatorRow` remains `true`. The `csvParser.ts` revision of the same
routine implements exactly the claimed behaviour on the same input. -/
theorem c2_fallback_eval :
    (MarkdownA.parsePipeTable ["| A | B |", "|---|---|", "| 1 | 2 |", "| 3 | 4 |"]).rows =
      [[("A", JsValue.num ⟨1, 0⟩), ("B", JsValue.num ⟨2, 0⟩)],
       [("A", JsValue.num ⟨3, 0⟩), ("B", JsValue.num ⟨4, 0⟩)]] ∧
    (let r := MarkdownA.parsePipeTable ["| A | B |", "| 1 | 2 |", "| 3 | 4 |"]
     r.headers = ["A", "B"] ∧
     (r.errors.filter (fun e => e.type = ErrKind.invalid_separator)).length = 1 ∧
     r.rows = [[("A", JsValue.num ⟨3, 0⟩), ("B", JsValue.num ⟨4, 0⟩)]] ∧
     r.metadata.hasSeparatorRow = true) ∧
    (let orig := MarkdownB.parsePipeTable ["| A | B |", "|---|---|", "| 1 | 2 |", "| 3 | 4 |"]
     let r := MarkdownB.parsePipeTable ["| A | B |", "| 1 | 2 |", "| 3 | 4 |"]
     orig.errors = [] ∧ orig.metadata.hasSeparatorRow = true ∧
     r.headers = orig.headers ∧ r.rows = orig.rows ∧
     (r.errors.filter (fun e => e.type = ErrKind.invalid_separator)).length = 1 ∧
     r.errors.length = 1 ∧
     r.metadata.hasSeparatorRow = false) := by
  refine ⟨by rfl, ⟨by rfl, by rfl, by rfl, by rfl⟩, ⟨by rfl, by rfl, by rfl, by rfl, by rfl, by rfl, by rfl⟩⟩

/-! ### Claim C3 -/

/-- C3: the concrete smart-link compilation from the spec, and in general: for
every row value of a smart-linked destination column, the compiled value is
the sub-select `(SELECT fk FROM table WHERE fk = formatted-value LIMIT 1)`,
except that a null, undefined (absent key), or empty-string source value
compiles to the literal `NULL` with no sub-select. -/
theorem c3_smartlink_sql :
    (Sql.generateSql ⟨["id"], [[("id", JsValue.str "5")]], [], ⟨1, 1, false, "csv", []⟩⟩
        [⟨"id", "user_id", some "orders", false, none, none⟩]
        (some [⟨"user_id", "users", "id"⟩]) none =
      "INSERT INTO orders (\"user_id\") VALUES\n  ((SELECT id FROM users WHERE id = '5' LIMIT 1));") ∧
    (∀ (links : List Sql.SmartLink) (link : Sql.SmartLink) (m : Sql.ColumnMapping) (row : Row),
      links.find? (fun l => decide (l.targetColumn = m.target)) = some link →
      Sql.mappedValue links row m =
        if objGet row m.source = none ∨ objGet row m.source = some JsValue.null ∨
            objGet row m.source = some (JsValue.str "") then "NULL"
        else
          "(SELECT " ++ link.foreignKey ++ " FROM " ++ link.foreignTable ++ " WHERE " ++
            link.foreignKey ++ " = " ++ Sql.formatValue (objGet row m.source) (some "string") ++
            " LIMIT 1)") ∧
    (∀ (ft fk : String),
      Sql.generateSql ⟨["id"], [([] : Row)], [], ⟨1, 1, false, "csv", []⟩⟩
          [⟨"id", "user_id", some "orders", false, none, none⟩]
          (some [⟨"user_id", ft, fk⟩]) none =
        "INSERT INTO orders (\"user_id\") VALUES\n  (NULL);") := by
  refine ⟨by rfl, ?_, fun ft fk => by rfl⟩
  intro links link m row hfind
  simp only [Sql.mappedValue, hfind]

/-- C3 witness: the general sub-select conjunct applied to the concrete
smart link and row of the spec example. -/
theorem c3_smartlink_sql_witness :
    Sql.mappedValue [⟨"user_id", "users", "id"⟩] [("id", JsValue.str "5")]
        ⟨"id", "user_id", some "orders", false, none, none⟩ =
      "(SELECT id FROM users WHERE id = '5' LIMIT 1)" := by
  have h := c3_smartlink_sql.2.1 [⟨"user_id", "users", "id"⟩] ⟨"user_id", "users", "id"⟩
    ⟨"id", "user_id", some "orders", false, none, none⟩ [("id", JsValue.str "5")] (by rfl)
  rw [h]
  rfl

/-! ### Claim C9 -/

theorem intercalateOne (sep x : String) : String.intercalate sep [x] = x := rfl

theorem countChar_append (d : Char) (a b : List Char) :
    countChar d (a ++ b) = countChar d a + countChar d b := by
  induction a with
  | nil => simp [countChar]
  | cons c cs ih =>
    simp [countChar, ih]
    omega

theorem escQuotes_count (l : List Char) :
    countChar '\'' (l.flatMap (fun c => if c = '\'' then [c, c] else [c])) =
      2 * countChar '\'' l := by
  induction l with
  | nil => rfl
  | cons c cs ih =>
    simp only [List.flatMap_cons, countChar_append, ih]
    by_cases h : c = '\''
    · simp [h, countChar]
      omega
    · simp [h, countChar]

/-- C9 counterexample: in the emitted statement, the destination table name
and the smart-link foreign table/column names are interpolated bare — the
output contains `INSERT INTO orders ` and `SELECT id FROM users`, and contains
neither `"orders"` nor `"users"` nor `"id"` wrapped in double quotes —
refuting the claim that each interpolated identifier appears wrapped in
double quotes. -/
theorem c9_counterexample :
    (let sql := Sql.generateSql
      ⟨["id"], [[("id", JsValue.str "5")]], [], ⟨1, 1, false, "csv", []⟩⟩
      [⟨"id", "user_id", some "orders", false, none, none⟩]
      (some [⟨"user_id", "users", "id"⟩]) none
     jsIncludes sql "INSERT INTO orders " = true ∧
     jsIncludes sql "\"orders\"" = false ∧
     jsIncludes sql "SELECT id FROM users WHERE id" = true ∧
     jsIncludes sql "\"users\"" = false ∧
     jsIncludes sql "\"id\"" = false) := by
  refine ⟨by decide, by decide, by decide, by decide, by decide⟩

/-- C9 (amended): destination column names (and missing-column names) are
wrapped in double quotes and string value literals are single-quoted with
every embedded single quote doubled, but the destination table name and the
smart-link foreign table and key are interpolated bare, without quoting or
escaping. -/
theorem c9_quoting (tbl col src ft fk : String) (v : JsValue) (htbl : tbl ≠ "") :
    (Sql.generateSql ⟨[src], [[(src, v)]], [], ⟨1, 1, false, "csv", []⟩⟩
        [⟨src, col, some tbl, false, none, some "text"⟩] none none =
      "INSERT INTO " ++ tbl ++ " (" ++ "\"" ++ col ++ "\"" ++ ") VALUES" ++ "\n  (" ++
        Sql.formatValue (some v) (some "text") ++ ")" ++ ";") ∧
    (Sql.generateSql ⟨[src], [[(src, JsValue.str "x")]], [], ⟨1, 1, false, "csv", []⟩⟩
        [⟨src, col, some tbl, false, none, none⟩] (some [⟨col, ft, fk⟩]) none =
      "INSERT INTO " ++ tbl ++ " (" ++ "\"" ++ col ++ "\"" ++ ") VALUES" ++
        "\n  ((SELECT " ++ fk ++ " FROM " ++ ft ++ " WHERE " ++ fk ++ " = " ++ "'x'" ++
        " LIMIT 1)" ++ ")" ++ ";") ∧
    (∀ s : String, s ≠ "" → s ≠ "null" →
      Sql.formatValue (some (JsValue.str s)) (some "text") = "'" ++ Sql.escQuotes s ++ "'" ∧
      countChar '\'' (Sql.escQuotes s).data = 2 * countChar '\'' s.data) := by
  have hfx : Sql.formatValue (some (JsValue.str "x")) (some "string") = "'x'" := by rfl
  refine ⟨?_, ?_, ?_⟩
  · simp [Sql.generateSql, Sql.groupByTable, Sql.groupInsert, Sql.tableBlock,
      Sql.isTruthyTable, Sql.mappedValue, objGet, List.find?, htbl, intercalateOne]
    simp [← String.append_assoc]
  · simp [Sql.generateSql, Sql.groupByTable, Sql.groupInsert, Sql.tableBlock,
      Sql.isTruthyTable, Sql.mappedValue, objGet, List.find?, htbl, intercalateOne, hfx]
    simp [← String.append_assoc]
  · intro s hs hn
    have hjson : jsIncludes (jsLower "text") "json" = false := by decide
    have hbr : jsIncludes (jsLower "text") "[]" = false := by decide
    have hnum : Sql.numericTypeHit (jsLower "text") = false := by decide
    have hbool : jsIncludes (jsLower "text") "bool" = false := by decide
    constructor
    · simp [Sql.formatValue, hs, hn, hjson, hbr, hnum, hbool, Sql.jsValueToString]
    · exact escQuotes_count s.data

/-- C9 witness: the amended quoting theorem applied at concrete identifiers
and a value containing a single quote. -/
theorem c9_quoting_witness :
    Sql.generateSql ⟨["n"], [[("n", JsValue.str "O'Hara")]], [], ⟨1, 1, false, "csv", []⟩⟩
        [⟨"n", "name", some "people", false, none, some "text"⟩] none none =
      "INSERT INTO people (\"name\") VALUES\n  ('O''Hara');" := by
  have h := (c9_quoting "people" "name" "n" "users" "id" (JsValue.str "O'Hara")
    (by decide)).1
  rw [h]
  rfl

/-! ### Claim C5 -/

/-- C5 counterexample: `CsvParser.inferType` turns `"1e3"` into the number
1000 although `"1e3"` matches neither the integer nor the decimal regex
(`Number(...)` accepts the exponent form), and the `csvParser.ts` Markdown
revision re-encodes the ISO string `"2024-01-15"` via `toISOString()` instead
of keeping the original ISO string. -/
theorem c5_counterexample :
    Csv.inferType ("1e3") = JsValue.num ⟨1, 3⟩ ∧
    MarkdownB.intRe ("1e3").data = false ∧
    MarkdownB.floatRe ("1e3").data = false ∧
    MarkdownB.inferType ("2024-01-15") = JsValue.str ("2024-01-15T00:00:00.000Z") ∧
    ("2024-01-15T00:00:00.000Z" : String) ≠ "2024-01-15" := by
  refine ⟨by rfl, by rfl, by rfl, by rfl, by decide⟩

/-- C5 (amended): type inference diverges across the three implementations.
`CsvParser.inferType`: empty is null, everything `Number(...)` coerces (with a
non-blank trim) is a number (a superset of the integer/decimal regexes),
case-insensitive true/false are booleans, and every other string — dates
included — is returned unchanged. The `csvParser.ts` Markdown revision:
empty is null, case-insensitive true/false are booleans, integer-regex
matches are numbers via `parseInt`, decimal-regex matches are numbers via
`parseFloat`, ISO-pattern strings are returned re-encoded through
`toISOString()` (not the original string), legacy `NN/NN/NNNN`, `NNNN/NN/NN`,
`NN-NN-NNNN` dates are normalised exactly when the JS date parse accepts them
and kept unchanged when it rejects them, and everything else is unchanged.
The `markdownParser.ts` revision: empty is null, `Number(...)`-coercible
strings are numbers, case-insensitive true/false are matched without
trimming, strings that begin with an ISO date prefix and date-parse are
re-encoded through `toISOString()`, date-parseable strings without the ISO
prefix are unchanged, and everything else is unchanged. -/
theorem c5_infer_characterisation :
    (Csv.inferType "" = JsValue.null ∧
     (∀ s n, s ≠ "" → jsStringToNumber s = .fin n → jsTrim s ≠ "" →
        Csv.inferType s = JsValue.num n) ∧
     (∀ s, s ≠ "" → jsStringToNumber s = .nan → jsTrim (jsLower s) = "true" →
        Csv.inferType s = JsValue.bool true) ∧
     (∀ s, s ≠ "" → jsStringToNumber s = .nan → jsTrim (jsLower s) ≠ "true" →
        jsTrim (jsLower s) = "false" → Csv.inferType s = JsValue.bool false) ∧
     (∀ s, s ≠ "" → jsStringToNumber s = .nan → jsTrim (jsLower s) ≠ "true" →
        jsTrim (jsLower s) ≠ "false" → Csv.inferType s = JsValue.str s)) ∧
    (MarkdownB.inferType "" = JsValue.null ∧
     (∀ s, s ≠ "" → jsLower (jsTrim s) = "true" → MarkdownB.inferType s = JsValue.bool true) ∧
     (∀ s, s ≠ "" → jsLower (jsTrim s) = "false" → MarkdownB.inferType s = JsValue.bool false) ∧
     (∀ s, s ≠ "" → jsLower (jsTrim s) ≠ "true" → jsLower (jsTrim s) ≠ "false" →
        MarkdownB.intRe (jsTrim s).data = true →
        MarkdownB.inferType s = JsValue.num (MarkdownB.intLitVal (jsTrim s).data)) ∧
     (∀ s, s ≠ "" → jsLower (jsTrim s) ≠ "true" → jsLower (jsTrim s) ≠ "false" →
        MarkdownB.intRe (jsTrim s).data = false → MarkdownB.floatRe (jsTrim s).data = true →
        MarkdownB.inferType s = JsValue.num (MarkdownB.floatLitVal (jsTrim s).data)) ∧
     (∀ s p ms, s ≠ "" → jsLower (jsTrim s) ≠ "true" → jsLower (jsTrim s) ≠ "false" →
        MarkdownB.intRe (jsTrim s).data = false → MarkdownB.floatRe (jsTrim s).data = false →
        parseIsoShape (jsTrim s).data = some p → jsDateFromIso p = some ms →
        MarkdownB.inferType s = JsValue.str (toISOString ms)) ∧
     (∀ s ms, s ≠ "" → jsLower (jsTrim s) ≠ "true" → jsLower (jsTrim s) ≠ "false" →
        MarkdownB.intRe (jsTrim s).data = false → MarkdownB.floatRe (jsTrim s).data = false →
        parseIsoShape (jsTrim s).data = none →
        ((parseNNsNNsNNNN '/' (jsTrim s).data).isSome = true ∨
         (parseYYYYsMMsDD '/' (jsTrim s).data).isSome = true ∨
         (parseNNsNNsNNNN '-' (jsTrim s).data).isSome = true) →
        jsDateParse (jsTrim s) = some ms →
        MarkdownB.inferType s = JsValue.str (toISOString ms)) ∧
     (∀ s, s ≠ "" → jsLower (jsTrim s) ≠ "true" → jsLower (jsTrim s) ≠ "false" →
        MarkdownB.intRe (jsTrim s).data = false → MarkdownB.floatRe (jsTrim s).data = false →
        parseIsoShape (jsTrim s).data = none →
        ((parseNNsNNsNNNN '/' (jsTrim s).data).isSome = true ∨
         (parseYYYYsMMsDD '/' (jsTrim s).data).isSome = true ∨
         (parseNNsNNsNNNN '-' (jsTrim s).data).isSome = true) →
        jsDateParse (jsTrim s) = none →
        MarkdownB.inferType s = JsValue.str s) ∧
     (∀ s, s ≠ "" → jsLower (jsTrim s) ≠ "true" → jsLower (jsTrim s) ≠ "false" →
        MarkdownB.intRe (jsTrim s).data = false → MarkdownB.floatRe (jsTrim s).data = false →
        parseIsoShape (jsTrim s).data = none →
        parseNNsNNsNNNN '/' (jsTrim s).data = none →
        parseYYYYsMMsDD '/' (jsTrim s).data = none →
        parseNNsNNsNNNN '-' (jsTrim s).data = none →
        MarkdownB.inferType s = JsValue.str s)) ∧
    (MarkdownA.inferType "" = JsValue.null ∧
     (∀ s n, s ≠ "" → jsStringToNumber s = .fin n → jsTrim s ≠ "" →
        MarkdownA.inferType s = JsValue.num n) ∧
     (∀ s, s ≠ "" → jsStringToNumber s = .nan → jsLower s = "true" →
        MarkdownA.inferType s = JsValue.bool true) ∧
     (∀ s, s ≠ "" → jsStringToNumber s = .nan → jsLower s ≠ "true" → jsLower s = "false" →
        MarkdownA.inferType s = JsValue.bool false) ∧
     (∀ s ms, s ≠ "" → jsStringToNumber s = .nan → jsLower s ≠ "true" → jsLower s ≠ "false" →
        jsDateParse s = some ms → MarkdownA.isoDatePre s.data = true →
        MarkdownA.inferType s = JsValue.str (toISOString ms)) ∧
     (∀ s ms, s ≠ "" → jsStringToNumber s = .nan → jsLower s ≠ "true" → jsLower s ≠ "false" →
        jsDateParse s = some ms → MarkdownA.isoDatePre s.data = false →
        MarkdownA.inferType s = JsValue.str s) ∧
     (∀ s, s ≠ "" → jsStringToNumber s = .nan → jsLower s ≠ "true" → jsLower s ≠ "false" →
        jsDateParse s = none → MarkdownA.inferType s = JsValue.str s)) := by
  refine ⟨⟨by rfl, ?_, ?_, ?_, ?_⟩, ⟨by rfl, ?_, ?_, ?_, ?_, ?_, ?_, ?_, ?_⟩,
    ⟨by rfl, ?_, ?_, ?_, ?_, ?_, ?_⟩⟩
  · intro s n h1 h2 h3
    simp [Csv.inferType, h1, h2, h3]
  · intro s h1 h2 h3
    simp [Csv.inferType, h1, h2, h3]
  · intro s h1 h2 h3 h4
    simp [Csv.inferType, h1, h2, h3, h4]
  · intro s h1 h2 h3 h4
    simp [Csv.inferType, h1, h2, h3, h4]
  · intro s h1 h2
    simp [MarkdownB.inferType, h1, h2]
  · intro s h1 h2
    simp [MarkdownB.inferType, h1, h2]
  · intro s h1 h2 h3 h4
    simp [MarkdownB.inferType, h1, h2, h3, h4]
  · intro s h1 h2 h3 h4 h5
    simp [MarkdownB.inferType, h1, h2, h3, h4, h5]
  · intro s p ms h1 h2 h3 h4 h5 h6 h7
    simp [MarkdownB.inferType, h1, h2, h3, h4, h5, h6, h7]
  · intro s ms h1 h2 h3 h4 h5 h6 hleg h7
    rcases hleg with ha | ha | ha
    · simp [MarkdownB.inferType, MarkdownB.legacyDates, h1, h2, h3, h4, h5, h6, ha, h7]
    · simp [MarkdownB.inferType, MarkdownB.legacyDates, h1, h2, h3, h4, h5, h6, ha, h7]
    · simp [MarkdownB.inferType, MarkdownB.legacyDates, h1, h2, h3, h4, h5, h6, ha, h7]
  · intro s h1 h2 h3 h4 h5 h6 hleg h7
    rcases hleg with ha | ha | ha
    · simp [MarkdownB.inferType, MarkdownB.legacyDates, h1, h2, h3, h4, h5, h6, ha, h7]
    · simp [MarkdownB.inferType, MarkdownB.legacyDates, h1, h2, h3, h4, h5, h6, ha, h7]
    · simp [MarkdownB.inferType, MarkdownB.legacyDates, h1, h2, h3, h4, h5, h6, ha, h7]
  · intro s h1 h2 h3 h4 h5 h6 h7 h8 h9
    simp [MarkdownB.inferType, MarkdownB.legacyDates, h1, h2, h3, h4, h5, h6, h7, h8, h9]
  · intro s n h1 h2 h3
    simp [MarkdownA.inferType, h1, h2, h3]
  · intro s h1 h2 h3
    simp [MarkdownA.inferType, h1, h2, h3]
  · intro s h1 h2 h3 h4
    simp [MarkdownA.inferType, h1, h2, h3, h4]
  · intro s ms h1 h2 h3 h4 h5 h6
    simp [MarkdownA.inferType, h1, h2, h3, h4, h5, h6]
  · intro s ms h1 h2 h3 h4 h5 h6
    simp [MarkdownA.inferType, h1, h2, h3, h4, h5, h6]
  · intro s h1 h2 h3 h4 h5
    simp [MarkdownA.inferType, h1, h2, h3, h4, h5]

/-- C5 witness: the characterisation applied at concrete cells — a decimal,
both booleans, an ISO date left unchanged by `CsvParser`; for the
`csvParser.ts` revision a boolean, an integer, a decimal, the ISO re-encoding,
a legacy `MM/DD/YYYY` date normalised, a legacy-shaped date the JS parse
rejects kept unchanged, and a plain string; for the `markdownParser.ts`
revision a boolean, the ISO re-encoding, and a date-parseable string without
the ISO prefix kept unchanged. -/
theorem c5_infer_witness :
    Csv.inferType ("2.5") = JsValue.num ⟨25, -1⟩ ∧
    Csv.inferType ("True") = JsValue.bool true ∧
    Csv.inferType ("FALSE") = JsValue.bool false ∧
    Csv.inferType ("2024-01-15") = JsValue.str ("2024-01-15") ∧
    MarkdownB.inferType ("true") = JsValue.bool true ∧
    MarkdownB.inferType ("-7") = JsValue.num ⟨-7, 0⟩ ∧
    MarkdownB.inferType ("2.5") = JsValue.num ⟨25, -1⟩ ∧
    MarkdownB.inferType ("2024-01-15") = JsValue.str ("2024-01-15T00:00:00.000Z") ∧
    MarkdownB.inferType ("01/02/2024") = JsValue.str ("2024-01-02T00:00:00.000Z") ∧
    MarkdownB.inferType ("15/01/2024") = JsValue.str ("15/01/2024") ∧
    MarkdownB.inferType ("abc") = JsValue.str ("abc") ∧
    MarkdownA.inferType ("False") = JsValue.bool false ∧
    MarkdownA.inferType ("2024-01-15") = JsValue.str ("2024-01-15T00:00:00.000Z") ∧
    MarkdownA.inferType ("01/02/2024") = JsValue.str ("01/02/2024") :=
  ⟨c5_infer_characterisation.1.2.1 ("2.5") ⟨25, -1⟩ (by decide) (by rfl) (by decide),
   c5_infer_characterisation.1.2.2.1 ("True") (by decide) (by rfl) (by rfl),
   c5_infer_characterisation.1.2.2.2.1 ("FALSE") (by decide) (by rfl) (by decide) (by rfl),
   c5_infer_characterisation.1.2.2.2.2 ("2024-01-15") (by decide) (by rfl) (by decide)
     (by decide),
   c5_infer_characterisation.2.1.2.1 ("true") (by decide) (by rfl),
   c5_infer_characterisation.2.1.2.2.2.1 ("-7") (by decide) (by decide) (by decide) (by rfl),
   c5_infer_characterisation.2.1.2.2.2.2.1 ("2.5") (by decide) (by decide) (by decide)
     (by rfl) (by rfl),
   c5_infer_characterisation.2.1.2.2.2.2.2.1 ("2024-01-15") ⟨2024, 1, 15, none⟩ 1705276800000
     (by decide) (by decide) (by decide) (by rfl) (by rfl) (by rfl) (by rfl),
   c5_infer_characterisation.2.1.2.2.2.2.2.2.1 ("01/02/2024") 1704153600000
     (by decide) (by decide) (by decide) (by rfl) (by rfl) (by rfl) (Or.inl (by rfl)) (by rfl),
   c5_infer_characterisation.2.1.2.2.2.2.2.2.2.1 ("15/01/2024")
     (by decide) (by decide) (by decide) (by rfl) (by rfl) (by rfl) (Or.inl (by rfl)) (by rfl),
   c5_infer_characterisation.2.1.2.2.2.2.2.2.2.2 ("abc") (by decide) (by decide) (by decide)
     (by rfl) (by rfl) (by rfl) (by rfl) (by rfl) (by rfl),
   c5_infer_characterisation.2.2.2.2.2.1 ("False") (by decide) (by rfl) (by decide) (by rfl),
   c5_infer_characterisation.2.2.2.2.2.2.1 ("2024-01-15") 1705276800000 (by decide) (by rfl)
     (by decide) (by decide) (by rfl) (by rfl),
   c5_infer_characterisation.2.2.2.2.2.2.2.1 ("01/02/2024") 1704153600000 (by decide) (by rfl)
     (by decide) (by decide) (by rfl) (by rfl)⟩

/-! ### Claim C7 -/

/-- The independent count of splitting delimiter occurrences: a scan with the
same quote/escape and bracket-depth state machine as the tokenizer that counts
exactly the positions where the character is the delimiter while the quote
state is closed and both depth counters are zero (and the character is not
consumed by the quote/bracket branches). -/
def splitCount (d : Char) : Nat → Bool → Int → Int → List Char → Nat
  | _, _, _, _, [] => 0
  | 0, _, _, _, _ => 0
  | fuel + 1, iq, bd, br, c :: rest =>
    if c = '"' ∧ bd = 0 ∧ br = 0 then
      if iq ∧ rest.head? = some '"' then splitCount d fuel iq bd br rest.tail
      else splitCount d fuel (!iq) bd br rest
    else if c = '[' ∧ iq = false then splitCount d fuel iq (bd + 1) br rest
    else if c = ']' ∧ iq = false then splitCount d fuel iq (bd - 1) br rest
    else if c = '{' ∧ iq = false then splitCount d fuel iq bd (br + 1) rest
    else if c = '}' ∧ iq = false then splitCount d fuel iq bd (br - 1) rest
    else if c = d ∧ iq = false ∧ bd = 0 ∧ br = 0 then 1 + splitCount d fuel iq bd br rest
    else splitCount d fuel iq bd br rest

theorem parseLineAux_length (d : Char) :
    ∀ (fuel : Nat) (iq : Bool) (bd br : Int) (cur l),
      (Csv.parseLineAux d fuel iq bd br cur l).length = splitCount d fuel iq bd br l + 1 := by
  intro fuel
  induction fuel with
  | zero =>
    intro iq bd br cur l
    cases l <;> rfl
  | succ fuel ih =>
    intro iq bd br cur l
    cases l with
    | nil => rfl
    | cons c rest =>
      rw [Csv.parseLineAux, splitCount]
      split_ifs <;> (simp [ih]; try omega)

/-- C7: every tokenized line yields exactly one more field than the number of
splitting delimiter occurrences — occurrences at closed quote state and both
bracket depths zero — so the final field is always emitted, even when empty;
concrete conjuncts exercise the `""` escape inside quotes, delimiters hidden
inside quotes, brackets and braces, and the trailing empty field. Output
fields are the raw scanned strings (no inference is applied by `parseLine`). -/
theorem c7_scanner :
    (∀ (d : Char) (line : String),
      (Csv.parseLine d line).length =
        splitCount d line.data.length false 0 0 line.data + 1) ∧
    Csv.parseLine ',' ("\"a\"\"b\",c") = ["a\"b", "c"] ∧
    Csv.parseLine ',' ("\"x,y\",z") = ["x,y", "z"] ∧
    Csv.parseLine ',' ("[1,2],x") = ["[1,2]", "x"] ∧
    Csv.parseLine ',' ("\x7b\"k\":1,\"j\":2\x7d,y") = ["\x7b\"k\":1,\"j\":2\x7d", "y"] ∧
    Csv.parseLine ',' ("a,b,") = ["a", "b", ""] := by
  refine ⟨?_, by rfl, by rfl, by rfl, by rfl, by rfl⟩
  intro d line
  simp [Csv.parseLine, parseLineAux_length]

/-! ### Claim C10 -/

/-- C10 counterexample: an NDJSON input whose every non-blank line is valid
JSON (and which starts with a brace, contains a newline, and fails the
whole-text parse) is nevertheless classified `markdown`, because the pipe
characters inside its JSON keys satisfy the higher-priority Markdown check. -/
theorem c10_counterexample :
    (let bad := "\x7b\"a|b\":1\x7d\n\x7b\"a|b\":-1\x7d"
     jsonParse (jsTrim bad) = none ∧
     startsWithL ['\x7b'] (jsTrim bad).data = true ∧
     jsIncludes (jsTrim bad) "\n" = true ∧
     (let lines := ((splitOnChar '\n' (jsTrim bad).data).map String.mk).filter
        (fun l => jsTrim l ≠ "")
      lines ≠ [] ∧ lines.all (fun line => (jsonParse line).isSome) = true) ∧
     Detect.detectFormat bad = Detect.DataFormat.markdown ∧
     Detect.DataFormat.markdown ≠ Detect.DataFormat.json ∧
     Detect.isJSON (jsTrim bad) = true) := by
  refine ⟨by rfl, by rfl, by rfl, ⟨by decide, by rfl⟩, by rfl, by decide, by rfl⟩

theorem jsTrimL_eq_rdrop (l : List Char) :
    jsTrimL l = List.rdropWhile isJsWs (List.dropWhile isJsWs l) := rfl

theorem jsTrimL_idem (l : List Char) : jsTrimL (jsTrimL l) = jsTrimL l := by
  rw [jsTrimL_eq_rdrop, jsTrimL_eq_rdrop]
  have h1 : List.dropWhile isJsWs (List.rdropWhile isJsWs (List.dropWhile isJsWs l)) =
      List.rdropWhile isJsWs (List.dropWhile isJsWs l) := by
    rw [List.dropWhile_eq_self_iff]
    intro hl
    have hpre := List.rdropWhile_prefix isJsWs (List.dropWhile isJsWs l)
    have hlen : 0 < (List.dropWhile isJsWs l).length := lt_of_lt_of_le hl hpre.length_le
    have hget := List.IsPrefix.getElem hpre hl
    simp only [List.get_eq_getElem]
    rw [hget]
    have := List.dropWhile_get_zero_not isJsWs l hlen
    simpa [List.get_eq_getElem] using this
  rw [h1, List.rdropWhile_idempotent]

theorem jsTrim_idem (s : String) : jsTrim (jsTrim s) = jsTrim s := by
  simp [jsTrim, jsTrimL_idem]

/-- C10 (amended): for every input whose whole trimmed text fails `JSON.parse`,
`detectFormat` classifies it as `json` iff the higher-priority Markdown check
rejects it AND the trimmed input starts with `[` or `{`, contains a newline,
has at least one non-blank line, and every non-blank line individually parses
as JSON — the NDJSON check is all-or-nothing, with no majority threshold. -/
theorem c10_ndjson_detection (input : String)
    (hfail : jsonParse (jsTrim input) = none) :
    Detect.detectFormat input = Detect.DataFormat.json ↔
      (Detect.isMarkdownTable (jsTrim input) = false ∧
       (startsWithL ['['] (jsTrim input).data = true ∨
        startsWithL ['\x7b'] (jsTrim input).data = true) ∧
       jsIncludes (jsTrim input) "\n" = true ∧
       (((splitOnChar '\n' (jsTrim input).data).map String.mk).filter
          (fun l => jsTrim l ≠ "")) ≠ [] ∧
       (((splitOnChar '\n' (jsTrim input).data).map String.mk).filter
          (fun l => jsTrim l ≠ "")).all (fun line => (jsonParse line).isSome) = true) := by
  have hjson : Detect.isJSON (jsTrim input) =
      ((startsWithL ['['] (jsTrim input).data || startsWithL ['\x7b'] (jsTrim input).data) &&
       (jsIncludes (jsTrim input) "\n" &&
        ((((splitOnChar '\n' (jsTrim input).data).map String.mk).filter
            (fun l => jsTrim l ≠ "")).all (fun line => (jsonParse line).isSome) &&
         decide (0 < (((splitOnChar '\n' (jsTrim input).data).map String.mk).filter
            (fun l => jsTrim l ≠ "")).length)))) := by
    rw [Detect.isJSON]
    rw [jsTrim_idem]
    rw [hfail]
    by_cases hs : (startsWithL ['['] (jsTrim input).data || startsWithL ['\x7b'] (jsTrim input).data) = true
    · simp only [hs]
      simp only [Bool.not_true, Bool.true_and]
      by_cases hn : jsIncludes (jsTrim input) "\n" = true
      · simp [hn]
      · simp only [Bool.not_eq_true] at hn
        simp [hn]
    · simp only [Bool.not_eq_true] at hs
      simp [hs]
  rw [Detect.detectFormat]
  by_cases hempty : (jsTrim input).data.length = 0
  · rw [if_pos hempty]
    have hz : jsTrim input = "" := by
      cases hq : jsTrim input with
      | mk data =>
        rw [hq] at hempty
        simp only [List.length_eq_zero] at hempty
        simp [hempty]
    constructor
    · intro h; exact absurd h (by decide)
    · rintro ⟨-, hstart, -⟩
      rw [hz] at hstart
      rcases hstart with h | h <;> simp [startsWithL, isPrefixL] at h
  · rw [if_neg hempty]
    by_cases hmd : Detect.isMarkdownTable (jsTrim input) = true
    · rw [if_pos hmd]
      constructor
      · intro h; exact absurd h (by decide)
      · rintro ⟨hmd2, -⟩
        exact Bool.noConfusion (hmd2 ▸ hmd)
    · simp only [Bool.not_eq_true] at hmd
      rw [if_neg (by simp [hmd])]
      by_cases hj : Detect.isJSON (jsTrim input) = true
      · rw [if_pos hj]
        rw [hjson] at hj
        simp only [Bool.and_eq_true, Bool.or_eq_true, decide_eq_true_eq] at hj
        obtain ⟨h1, h2, h3, h4⟩ := hj
        refine ⟨fun _ => ⟨hmd, h1, h2, ?_, h3⟩, fun _ => rfl⟩
        rw [← List.length_pos_iff_ne_nil]
        exact h4
      · simp only [Bool.not_eq_true] at hj
        rw [if_neg (by simp [hj])]
        constructor
        · intro h
          split at h <;> exact absurd h (by decide)
        · rintro ⟨-, hstart, hnl, hne, hall⟩
          rw [← List.length_pos_iff_ne_nil] at hne
          have hjt : Detect.isJSON (jsTrim input) = true := by
            rw [hjson]
            simp only [Bool.and_eq_true, Bool.or_eq_true, decide_eq_true_eq]
            exact ⟨hstart, hnl, hall, hne⟩
          simp [hjt] at hj

/-- C10 witness: the amended detection criterion applied to a two-line NDJSON
input, which is classified `json`. -/
theorem c10_ndjson_witness :
    Detect.detectFormat ("[1]\n[2]") = Detect.DataFormat.json :=
  (c10_ndjson_detection ("[1]\n[2]") (by rfl)).mpr
    ⟨by rfl, Or.inl (by rfl), by rfl, by decide, by rfl⟩

/-! ### Claim C8 -/

theorem csv_adjustRow_eq (vals : List String) (n : Nat) (h : vals.length = n) :
    Csv.adjustRow vals n = vals := by
  simp [Csv.adjustRow, h]

theorem mdA_adjustRow_eq (vals : List String) (n : Nat) (h : vals.length = n) :
    MarkdownA.adjustRowToHeaders vals n = vals := by
  simp [MarkdownA.adjustRowToHeaders, h]

theorem csv_parseRowsAux_spec (d : Char) (headers : List String) :
    ∀ (i : Nat) (ls : List String),
      Csv.parseRowsAux d headers i ls =
        (ls.map (fun line => Csv.createRowObject headers
            (Csv.adjustRow (Csv.parseLine d line) headers.length)),
         (List.enumFrom i ls).filterMap (fun p =>
           if (Csv.parseLine d p.2).length ≠ headers.length then
             some (Csv.mismatchErr p.1 (Csv.parseLine d p.2).length headers.length p.2)
           else none)) := by
  intro i ls
  induction ls generalizing i with
  | nil => simp [Csv.parseRowsAux]
  | cons line rest ih =>
    rw [Csv.parseRowsAux]
    rw [ih (i + 1)]
    by_cases h : (Csv.parseLine d line).length = headers.length
    · simp [h, csv_adjustRow_eq _ _ h, List.enumFrom]
    · simp [h, List.enumFrom]

theorem mdA_dataRowsAux_spec (headers : List String) (sepIdx : Nat) :
    ∀ (i : Nat) (ls : List String),
      (∀ l ∈ ls, jsTrim l ≠ "" ∧ MarkdownA.isSeparatorRow l = false) →
      MarkdownA.dataRowsAux headers sepIdx i ls =
        (ls.map (fun line => MarkdownA.createRowObject headers
            (MarkdownA.adjustRowToHeaders (MarkdownA.parsePipeLine line) headers.length)),
         (List.enumFrom i ls).filterMap (fun p =>
           if (MarkdownA.parsePipeLine p.2).length ≠ headers.length then
             some (MarkdownA.mismatchErr (p.1 - sepIdx) (MarkdownA.parsePipeLine p.2).length
               headers.length p.1 p.2)
           else none)) := by
  intro i ls
  induction ls generalizing i with
  | nil => intro _; simp [MarkdownA.dataRowsAux]
  | cons line rest ih =>
    intro hall
    obtain ⟨hblank, hsep⟩ := hall line (List.mem_cons_self line rest)
    have hrest : ∀ l ∈ rest, jsTrim l ≠ "" ∧ MarkdownA.isSeparatorRow l = false :=
      fun l hl => hall l (List.mem_cons_of_mem line hl)
    rw [MarkdownA.dataRowsAux]
    rw [if_neg (by simpa using hblank), if_neg (by simp [hsep])]
    rw [ih (i + 1) hrest]
    by_cases h : (MarkdownA.parsePipeLine line).length = headers.length
    · simp [h, mdA_adjustRow_eq _ _ h, List.enumFrom]
    · simp [h, List.enumFrom]

/-- C8: in the delimited parser, every data row whose tokenized cell count
differs from the header count contributes exactly one `column_mismatch` error
naming the 1-based row and both counts, the row is truncated or padded before
the record is built, and every data line still yields a row (parsing never
aborts); and the same holds of the pipe parser of `markdownParser.ts` for a
standard table (header, separator, data lines that are neither blank nor
separator-shaped), whose errors are exactly the per-bad-row
`column_mismatch` entries. -/
theorem c8_column_mismatch :
    (∀ (d : Char) (hdr : String) (dataLines : List String),
      Csv.parseLine d hdr ≠ [] →
      Csv.parseFromLines d (hdr :: dataLines) =
        ⟨Csv.parseLine d hdr,
         dataLines.map (fun line => Csv.createRowObject (Csv.parseLine d hdr)
           (Csv.adjustRow (Csv.parseLine d line) (Csv.parseLine d hdr).length)),
         (List.enumFrom 1 dataLines).filterMap (fun p =>
           if (Csv.parseLine d p.2).length ≠ (Csv.parseLine d hdr).length then
             some (Csv.mismatchErr p.1 (Csv.parseLine d p.2).length
               (Csv.parseLine d hdr).length p.2)
           else none),
         ⟨dataLines.length, (Csv.parseLine d hdr).length, false, "csv",
          Csv.getSampleValues (dataLines.map (fun line =>
            Csv.createRowObject (Csv.parseLine d hdr)
              (Csv.adjustRow (Csv.parseLine d line) (Csv.parseLine d hdr).length)))
            (Csv.parseLine d hdr)⟩⟩) ∧
    (∀ (hdr sep : String) (dataLines : List String),
      MarkdownA.isSeparatorRow hdr = false →
      MarkdownA.isSeparatorRow sep = true →
      (∀ l ∈ dataLines, jsTrim l ≠ "" ∧ MarkdownA.isSeparatorRow l = false) →
      (MarkdownA.parsePipeLine sep).filter
          (fun col => col ≠ "" ∧ !MarkdownA.pureSepPipe col.data) = [] →
      MarkdownA.parsePipeTable (hdr :: sep :: dataLines) =
        ⟨MarkdownA.parsePipeLine hdr,
         dataLines.map (fun line => MarkdownA.createRowObject (MarkdownA.parsePipeLine hdr)
           (MarkdownA.adjustRowToHeaders (MarkdownA.parsePipeLine line)
             (MarkdownA.parsePipeLine hdr).length)),
         (List.enumFrom 2 dataLines).filterMap (fun p =>
           if (MarkdownA.parsePipeLine p.2).length ≠ (MarkdownA.parsePipeLine hdr).length then
             some (MarkdownA.mismatchErr (p.1 - 1) (MarkdownA.parsePipeLine p.2).length
               (MarkdownA.parsePipeLine hdr).length p.1 p.2)
           else none),
         ⟨dataLines.length, (MarkdownA.parsePipeLine hdr).length, true, "pipe"⟩⟩) := by
  constructor
  · intro d hdr dataLines hne
    rw [Csv.parseFromLines]
    rw [if_neg (by simpa [List.length_eq_zero] using hne)]
    rw [csv_parseRowsAux_spec]
    simp
  · intro hdr sep dataLines hh hs hall hcols
    have hfind : MarkdownA.findSepFrom (hdr :: sep :: dataLines) 0 = some 1 := by
      rw [MarkdownA.findSepFrom, if_neg (by simp [hh])]
      rw [MarkdownA.findSepFrom, if_pos (by simp [hs])]
    rw [MarkdownA.parsePipeTable]
    rw [hfind]
    simp only [Option.getD_some, show (1 : Nat) - 1 = 0 from rfl,
      show (1 : Nat) + 1 = 2 from rfl, List.get?_eq_getElem?, List.getElem?_cons_zero,
      List.headD_cons, ite_self, List.getD, List.getElem?_cons_succ,
      List.drop_succ_cons, List.drop_zero]
    rw [mdA_dataRowsAux_spec _ _ _ _ hall]
    rw [hcols]
    simp [List.length_map]

/-- C8 witness: the delimited parser on a 2-column header with a 3-cell and a
2-cell row (one `column_mismatch`, third value discarded, both rows kept), and
the spec's 2-column pipe table with one 3-column data row (exactly one
`column_mismatch`, truncated row). -/
theorem c8_column_mismatch_witness :
    Csv.parseFromLines ',' ["a,b", "1,2,3", "4,5"] =
      ⟨["a", "b"],
       [[("a", JsValue.num ⟨1, 0⟩), ("b", JsValue.num ⟨2, 0⟩)],
        [("a", JsValue.num ⟨4, 0⟩), ("b", JsValue.num ⟨5, 0⟩)]],
       [⟨ErrKind.column_mismatch, "Row 1 has 3 columns, expected 2", some 2, some "1,2,3",
         some "Check for unescaped delimiters or missing values"⟩],
       ⟨2, 2, false, "csv",
        [("a", [JsValue.num ⟨1, 0⟩, JsValue.num ⟨4, 0⟩]),
         ("b", [JsValue.num ⟨2, 0⟩, JsValue.num ⟨5, 0⟩])]⟩⟩ ∧
    MarkdownA.parsePipeTable ["| A | B |", "|---|---|", "| 1 | 2 | 3 |"] =
      ⟨["A", "B"],
       [[("A", JsValue.num ⟨1, 0⟩), ("B", JsValue.num ⟨2, 0⟩)]],
       [⟨ErrKind.column_mismatch, "Row 1 has 3 columns, expected 2", some 3,
         some "| 1 | 2 | 3 |",
         some "Too many columns - check for extra pipe characters"⟩],
       ⟨1, 2, true, "pipe"⟩⟩ := by
  constructor
  · have h := c8_column_mismatch.1 ',' ("a,b") ["1,2,3", "4,5"] (by decide)
    rw [h]
    rfl
  · have h := c8_column_mismatch.2 ("| A | B |") ("|---|---|") ["| 1 | 2 | 3 |"]
      (by rfl) (by rfl) (by decide) (by rfl)
    rw [h]
    rfl

/-! ### Claim C6 -/

theorem strLeAux_total (a : List Char) : ∀ b, strLeAux a b = true ∨ strLeAux b a = true := by
  induction a with
  | nil => intro b; left; rfl
  | cons x xs ih =>
    intro b
    cases b with
    | nil => right; rfl
    | cons y ys =>
      by_cases h : x = y
      · subst h
        simpa [strLeAux] using ih ys
      · rcases lt_trichotomy x y with hlt | heq | hgt
        · left; simp [strLeAux, h, hlt]
        · exact absurd heq h
        · right; simp [strLeAux, Ne.symm h, hgt]

theorem strLeAux_trans : ∀ (a b c : List Char),
    strLeAux a b = true → strLeAux b c = true → strLeAux a c = true
  | [], _, _, _, _ => rfl
  | _ :: _, [], _, h, _ => by simp [strLeAux] at h
  | _ :: _, _ :: _, [], _, h2 => by simp [strLeAux] at h2
  | x :: xs, y :: ys, z :: zs, h1, h2 => by
    by_cases hxy : x = y
    · subst hxy
      by_cases hyz : x = z
      · subst hyz
        simp only [strLeAux, if_pos rfl] at h1 h2 ⊢
        exact strLeAux_trans xs ys zs h1 h2
      · simpa [strLeAux, hyz] using h2
    · by_cases hyz : y = z
      · subst hyz
        simpa [strLeAux, hxy] using h1
      · simp only [strLeAux, if_neg hxy, decide_eq_true_eq] at h1
        simp only [strLeAux, if_neg hyz, decide_eq_true_eq] at h2
        have hlt := lt_trans h1 h2
        simp [strLeAux, ne_of_lt hlt, hlt]

theorem strLe_total (a b : String) : strLe a b = true ∨ strLe b a = true :=
  strLeAux_total a.data b.data

theorem strLe_trans {a b c : String} (h1 : strLe a b = true) (h2 : strLe b c = true) :
    strLe a c = true :=
  strLeAux_trans a.data b.data c.data h1 h2

theorem insertStr_perm (x : String) : ∀ l : List String, (insertStr x l).Perm (x :: l) := by
  intro l
  induction l with
  | nil => rfl
  | cons y ys ih =>
    rw [insertStr]
    split
    · rfl
    · exact ((ih.cons y).trans (List.Perm.swap x y ys))

theorem sortStrs_perm : ∀ l : List String, (sortStrs l).Perm l := by
  intro l
  induction l with
  | nil => rfl
  | cons x xs ih => exact (insertStr_perm x (sortStrs xs)).trans (ih.cons x)

theorem mem_sortStrs (y : String) (l : List String) : y ∈ sortStrs l ↔ y ∈ l :=
  (sortStrs_perm l).mem_iff

theorem insertStr_pairwise (x : String) (l : List String)
    (hl : List.Pairwise (fun a b => strLe a b = true) l) :
    List.Pairwise (fun a b => strLe a b = true) (insertStr x l) := by
  induction l with
  | nil => simp [insertStr]
  | cons y ys ih =>
    rw [insertStr]
    split
    · refine List.Pairwise.cons ?_ hl
      intro z hz
      rcases List.mem_cons.mp hz with hz | hz
      · subst hz; assumption
      · exact strLe_trans (by assumption) (List.rel_of_pairwise_cons hl hz)
    · have hyx : strLe y x = true := by
        rcases strLe_total x y with h | h
        · simp_all
        · exact h
      refine List.Pairwise.cons ?_ (ih (List.Pairwise.sublist (List.sublist_cons_self y ys) hl))
      intro z hz
      rcases List.mem_cons.mp ((insertStr_perm x ys).mem_iff.mp hz) with hz | hz
      · subst hz; exact hyx
      · exact List.rel_of_pairwise_cons hl hz

theorem sortStrs_pairwise (l : List String) :
    List.Pairwise (fun a b => strLe a b = true) (sortStrs l) := by
  induction l with
  | nil => simp [sortStrs]
  | cons x xs ih => exact insertStr_pairwise x (sortStrs xs) ih

theorem mem_dedupAux (y : String) :
    ∀ (l : List String) (seen : List String),
      y ∈ JsonP.dedupAux seen l ↔ y ∈ l ∧ ¬ y ∈ seen := by
  intro l
  induction l with
  | nil => intro seen; simp [JsonP.dedupAux]
  | cons x xs ih =>
    intro seen
    rw [JsonP.dedupAux]
    by_cases hseen : seen.any (fun z => decide (z = x)) = true
    · rw [if_pos hseen]
      rw [ih seen]
      simp only [List.any_eq_true, decide_eq_true_eq] at hseen
      obtain ⟨z, hz, hzx⟩ := hseen
      subst hzx
      constructor
      · rintro ⟨h1, h2⟩
        exact ⟨List.mem_cons_of_mem z h1, h2⟩
      · rintro ⟨h1, h2⟩
        rcases List.mem_cons.mp h1 with h | h
        · subst h; exact absurd hz h2
        · exact ⟨h, h2⟩
    · rw [if_neg hseen]
      simp only [List.any_eq_true, decide_eq_true_eq, not_exists, not_and] at hseen
      push_neg at hseen
      simp only [List.mem_cons]
      rw [ih (x :: seen)]
      constructor
      · rintro (h | ⟨h1, h2⟩)
        · subst h
          refine ⟨Or.inl rfl, fun hc => ?_⟩
          exact (hseen y hc) rfl
        · simp only [List.mem_cons, not_or] at h2
          exact ⟨Or.inr h1, h2.2⟩
      · rintro ⟨h1 | h1, h2⟩
        · exact Or.inl h1
        · by_cases hyx : y = x
          · exact Or.inl hyx
          · exact Or.inr ⟨h1, by simp [hyx, h2]⟩

theorem dedupAux_nodup :
    ∀ (l : List String) (seen : List String), (JsonP.dedupAux seen l).Nodup := by
  intro l
  induction l with
  | nil => intro seen; simp [JsonP.dedupAux]
  | cons x xs ih =>
    intro seen
    rw [JsonP.dedupAux]
    by_cases hseen : seen.any (fun z => decide (z = x)) = true
    · rw [if_pos hseen]
      exact ih seen
    · rw [if_neg hseen]
      refine List.Nodup.cons ?_ (ih (x :: seen))
      intro hc
      have := (mem_dedupAux x xs (x :: seen)).mp hc
      exact this.2 (List.mem_cons_self x seen)

theorem collectKeys_match_eq (row : Json) :
    (match row with
     | Json.obj fs => JsonP.collectKeys "" (Json.obj fs)
     | Json.arr xs => JsonP.collectKeys "" (Json.arr xs)
     | _ => []) = JsonP.collectKeys "" row := by
  cases row <;> rfl

theorem objSet_of_not_mem (row : Row) (k : String) (v : JsValue)
    (h : ∀ p ∈ row, p.1 ≠ k) : objSet row k v = row ++ [(k, v)] := by
  rw [objSet, if_neg]
  simp only [List.any_eq_true, decide_eq_true_eq, not_exists, not_and]
  exact fun p hp => h p hp

theorem foldl_objSet_eq (f : String → JsValue) :
    ∀ (ks : List String) (acc : Row), ks.Nodup → (∀ k ∈ ks, ∀ p ∈ acc, p.1 ≠ k) →
      ks.foldl (fun a h => objSet a h (f h)) acc = acc ++ ks.map (fun k => (k, f k)) := by
  intro ks
  induction ks with
  | nil => intro acc _ _; simp
  | cons k ks ih =>
    intro acc hnd hdisj
    rw [List.foldl_cons]
    rw [objSet_of_not_mem acc k (f k) (hdisj k (List.mem_cons_self k ks))]
    rw [ih (acc ++ [(k, f k)]) (List.Nodup.of_cons hnd) ?_]
    · simp
    · intro k2 hk2 p hp
      rcases List.mem_append.mp hp with hp | hp
      · exact hdisj k2 (List.mem_cons_of_mem k hk2) p hp
      · simp only [List.mem_singleton] at hp
        subst hp
        intro hc
        simp only at hc
        subst hc
        exact (List.nodup_cons.mp hnd).1 hk2

theorem normalizeRow_eq_map (row : Json) (hs : List String) (hnd : hs.Nodup) :
    JsonP.normalizeRow row hs =
      hs.map (fun h =>
        (h, match JsonP.getValueByPath row h with
            | none => JsValue.null
            | some v => JsonP.inferType v)) := by
  rw [JsonP.normalizeRow]
  rw [foldl_objSet_eq _ hs [] hnd (by simp)]
  simp

/-- C6: the headers of `JsonParser` are sorted (code-point order), free of
duplicates, and contain exactly the dotted-path keys collected from the rows
(nested non-array objects flattened, arrays and primitive/null leaves
terminating at their key); every normalised row lists exactly the headers, in
order, each mapped through the dotted-path lookup with unreachable paths
yielding `null`; array and object leaf values are serialised by
`JSON.stringify`; and the spec's concrete example evaluates exactly as
claimed. -/
theorem c6_json_flatten :
    (∀ data : List Json,
      List.Pairwise (fun a b => strLe a b = true) (JsonP.extractHeaders data) ∧
      (JsonP.extractHeaders data).Nodup ∧
      (∀ h, h ∈ JsonP.extractHeaders data ↔
        h ∈ data.flatMap (fun row => JsonP.collectKeys "" row))) ∧
    (∀ (data : List Json) (row : Json),
      JsonP.normalizeRow row (JsonP.extractHeaders data) =
        (JsonP.extractHeaders data).map (fun h =>
          (h, match JsonP.getValueByPath row h with
              | none => JsValue.null
              | some v => JsonP.inferType v))) ∧
    (∀ xs, JsonP.inferType (Json.arr xs) = JsValue.str (stringify (Json.arr xs))) ∧
    (∀ fs, JsonP.inferType (Json.obj fs) = JsValue.str (stringify (Json.obj fs))) ∧
    JsonP.parse ("[\x7b\"a\":1\x7d,\x7b\"a\":2,\"b\":\"x\"\x7d]") =
      ⟨["a", "b"],
       [[("a", JsValue.num ⟨1, 0⟩), ("b", JsValue.null)],
        [("a", JsValue.num ⟨2, 0⟩), ("b", JsValue.str "x")]],
       [],
       ⟨2, 2, false, "json",
        [("a", [JsValue.num ⟨1, 0⟩, JsValue.num ⟨2, 0⟩]), ("b", [JsValue.str "x"])]⟩⟩ := by
  have hext : ∀ data : List Json,
      List.Pairwise (fun a b => strLe a b = true) (JsonP.extractHeaders data) ∧
      (JsonP.extractHeaders data).Nodup ∧
      (∀ h, h ∈ JsonP.extractHeaders data ↔
        h ∈ data.flatMap (fun row => JsonP.collectKeys "" row)) := by
    intro data
    rw [JsonP.extractHeaders]
    by_cases hlen : data.length = 0
    · rw [if_pos hlen]
      rw [List.length_eq_zero] at hlen
      subst hlen
      simp
    · rw [if_neg hlen]
      have hflat : (data.flatMap (fun row =>
          match row with
          | Json.obj _ => JsonP.collectKeys "" row
          | Json.arr _ => JsonP.collectKeys "" row
          | _ => ([] : List String))) =
          data.flatMap (fun row => JsonP.collectKeys "" row) := by
        congr 1
        funext row
        cases row <;> rfl
      rw [hflat]
      refine ⟨sortStrs_pairwise _, ?_, ?_⟩
      · exact (sortStrs_perm _).nodup_iff.mpr (dedupAux_nodup _ [])

      · intro h
        rw [mem_sortStrs, JsonP.dedupKeepFirst, mem_dedupAux]
        simp
  refine ⟨hext, ?_, fun xs => rfl, fun fs => rfl, by rfl⟩
  intro data row
  exact normalizeRow_eq_map row _ (hext data).2.1
/-! ### C4: format-detector acceptance vs `CsvParser` consistency -/

/-- When the input contains no carriage return, `split(/\r?\n/)` coincides
with a plain split on `'\n'`. -/
theorem splitLinesAux_eq_splitOnChar :
    ∀ (fuel : Nat) (l : List Char), l.length ≤ fuel → '\r' ∉ l →
      splitLinesAux fuel l = splitOnChar '\n' l := by
  intro fuel
  induction fuel with
  | zero =>
    intro l hl _
    cases l with
    | nil => rfl
    | cons c cs => simp at hl
  | succ n ih =>
    intro l hl hr
    cases l with
    | nil => rfl
    | cons c cs =>
      have hr1 : c ≠ '\r' := fun h => hr (h ▸ List.mem_cons_self c cs)
      have hr2 : '\r' ∉ cs := fun h => hr (List.mem_cons_of_mem c h)
      have hlen : cs.length ≤ n := by
        simpa using hl
      by_cases hc : c = '\n'
      · subst hc
        simp only [splitLinesAux, if_pos rfl]
        rw [ih cs hlen hr2]
        simp [splitOnChar]
      · have hnr : ¬(c = '\r' ∧ cs.head? = some '\n') := fun h => hr1 h.1
        simp only [splitLinesAux, if_neg hc, if_neg hnr]
        rw [ih cs hlen hr2]
        simp only [splitOnChar, if_neg hc]

theorem splitLinesCRLF_eq_splitOnChar (l : List Char) (hr : '\r' ∉ l) :
    splitLinesCRLF l = splitOnChar '\n' l :=
  splitLinesAux_eq_splitOnChar l.length l le_rfl hr

/-- Every character of every chunk of `splitOnChar` comes from the input. -/
theorem mem_splitOnChar (d : Char) :
    ∀ (l : List Char), ∀ a ∈ splitOnChar d l, ∀ c ∈ a, c ∈ l := by
  intro l
  induction l with
  | nil =>
    intro a ha c hc
    simp only [splitOnChar, List.mem_singleton] at ha
    subst ha
    simp at hc
  | cons x xs ih =>
    intro a ha c hc
    simp only [splitOnChar] at ha
    by_cases hx : x = d
    · rw [if_pos hx] at ha
      rcases List.mem_cons.mp ha with h | h
      · subst h; simp at hc
      · exact List.mem_cons_of_mem x (ih a h c hc)
    · rw [if_neg hx] at ha
      cases hsp : splitOnChar d xs with
      | nil => exact absurd hsp (splitOnChar_ne_nil d xs)
      | cons h0 t0 =>
        rw [hsp] at ha
        rcases List.mem_cons.mp ha with h | h
        · subst h
          rcases List.mem_cons.mp hc with h1 | h1
          · rw [h1]; exact List.mem_cons_self x xs
          · refine List.mem_cons_of_mem x (ih h0 ?_ c h1)
            rw [hsp]
            exact List.mem_cons_self h0 t0
        · refine List.mem_cons_of_mem x (ih a ?_ c hc)
          rw [hsp]
          exact List.mem_cons_of_mem h0 h

/-- Trimming only removes characters. -/
theorem mem_jsTrimL (l : List Char) (c : Char) (h : c ∈ jsTrimL l) : c ∈ l := by
  rw [jsTrimL_eq_rdrop] at h
  have h1 : c ∈ List.dropWhile isJsWs l :=
    (List.rdropWhile_prefix isJsWs (List.dropWhile isJsWs l)).subset h
  exact (List.dropWhile_sublist isJsWs).subset h1

/-- The detector's non-blank-line filter on mapped strings equals the
parser's char-list-level filter. -/
theorem detectLines_eq (t : String) :
    ((splitOnChar '\n' t.data).map String.mk).filter (fun l => jsTrim l ≠ "") =
      ((splitOnChar '\n' t.data).filter (fun l => !isBlankL l)).map String.mk := by
  rw [List.filter_map]
  congr 1
  apply List.filter_congr
  intro a _
  show decide (jsTrim (String.mk a) ≠ "") = !isBlankL a
  have : jsTrim (String.mk a) = String.mk (jsTrimL a) := rfl
  rw [this]
  cases h : jsTrimL a with
  | nil => simp [isBlankL, h, String.ext_iff]
  | cons x xs => simp [isBlankL, h, String.ext_iff]

/-- `detectDelimiter` only ever returns one of the four candidates. -/
theorem detectDelimiter_cases (s : String) :
    Csv.detectDelimiter s = ',' ∨ Csv.detectDelimiter s = '\t' ∨
      Csv.detectDelimiter s = '|' ∨ Csv.detectDelimiter s = ';' := by
  simp only [Csv.detectDelimiter]
  split_ifs <;> simp
/-- On a line with no quote and no bracket characters, the single-pass scanner
degenerates to a plain split on the delimiter (the quote state and both depth
counters never change from their initial values). -/
theorem parseLineAux_plain (d : Char) :
    ∀ (fuel : Nat) (l cur : List Char),
      (∀ c ∈ l, c ≠ '"' ∧ c ≠ '[' ∧ c ≠ ']' ∧ c ≠ '\x7b' ∧ c ≠ '\x7d') →
      l.length ≤ fuel →
      Csv.parseLineAux d fuel false 0 0 cur l =
        (splitOnChar d l).modifyHead (fun h => cur.reverse ++ h) := by
  intro fuel
  induction fuel with
  | zero =>
    intro l cur _ hl
    cases l with
    | nil => simp [Csv.parseLineAux, splitOnChar, List.modifyHead]
    | cons c cs => simp at hl
  | succ n ih =>
    intro l cur hspec hl
    cases l with
    | nil => simp [Csv.parseLineAux, splitOnChar, List.modifyHead]
    | cons c cs =>
      obtain ⟨hq, hb1, hb2, hb3, hb4⟩ := hspec c (List.mem_cons_self c cs)
      have hrest : ∀ x ∈ cs, x ≠ '"' ∧ x ≠ '[' ∧ x ≠ ']' ∧ x ≠ '\x7b' ∧ x ≠ '\x7d' :=
        fun x hx => hspec x (List.mem_cons_of_mem c hx)
      have hlen : cs.length ≤ n := by
        simpa using hl
      simp only [Csv.parseLineAux, and_true, true_and, Bool.false_eq_true, false_and,
        if_false, Bool.not_false]
      rw [if_neg hq, if_neg hb1, if_neg hb2, if_neg hb3, if_neg hb4]
      by_cases hc : c = d
      · rw [if_pos hc, ih cs [] hrest hlen]
        simp only [splitOnChar, if_pos hc]
        cases hsp : splitOnChar d cs with
        | nil => simp [List.modifyHead]
        | cons h0 t0 => simp [List.modifyHead]
      · rw [if_neg hc, ih cs (c :: cur) hrest hlen]
        simp only [splitOnChar, if_neg hc]
        cases hsp : splitOnChar d cs with
        | nil => exact absurd hsp (splitOnChar_ne_nil d cs)
        | cons h0 t0 => simp [List.modifyHead, List.reverse_cons, List.append_assoc]

/-- `parseLine` on a line with no quote and no bracket characters is a plain
split on the delimiter. -/
theorem parseLine_plain (d : Char) (line : String)
    (hspec : ∀ c ∈ line.data, c ≠ '"' ∧ c ≠ '[' ∧ c ≠ ']' ∧ c ≠ '\x7b' ∧ c ≠ '\x7d') :
    Csv.parseLine d line = (splitOnChar d line.data).map String.mk := by
  unfold Csv.parseLine
  rw [parseLineAux_plain d line.data.length line.data [] hspec le_rfl]
  cases hsp : splitOnChar d line.data with
  | nil => exact absurd hsp (splitOnChar_ne_nil d line.data)
  | cons h0 t0 => simp [List.modifyHead]
/-- The line list of `CsvParser.parse`: trim the input, split on `/\r?\n/`,
drop blank lines. -/
def csvLines (input : String) : List String :=
  ((splitLinesCRLF (jsTrim input).data).filter (fun l => !isBlankL l)).map String.mk

/-- C4 (counterexample): two inputs accepted as csv by `detectFormat` refute
the claim. `"a,b"` on the header line is one quoted cell for the parser but
two comma-separated cells for the detector, so the parsed header count is 1,
not `> 1`; and on a comma/semicolon tie the detector measures consistency
with `,` while `detectDelimiter` picks `;`, so all 4 parsed rows come from
lines whose tokenized cell count (1) differs from the header count (2) —
0% consistency, far below 80%. -/
theorem c4_counterexample :
    Detect.detectFormat "\"a,b\"\nx,y" = Detect.DataFormat.csv ∧
    (Csv.parse "\"a,b\"\nx,y").headers.length = 1 ∧
    Detect.detectFormat "a,b;c\n1,2\n3,4\n5,6\n7,8" = Detect.DataFormat.csv ∧
    (Csv.parse "a,b;c\n1,2\n3,4\n5,6\n7,8").headers.length = 2 ∧
    (Csv.parse "a,b;c\n1,2\n3,4\n5,6\n7,8").rows.length = 4 ∧
    ((csvLines "a,b;c\n1,2\n3,4\n5,6\n7,8").drop 1).countP (fun line =>
      decide ((Csv.parseLine (Csv.detectDelimiter (jsTrim "a,b;c\n1,2\n3,4\n5,6\n7,8"))
          line).length =
        (Csv.parse "a,b;c\n1,2\n3,4\n5,6\n7,8").headers.length)) = 0 :=
  ⟨rfl, rfl, rfl, rfl, rfl, rfl⟩

/-- C4 (amended): on inputs free of quote, bracket, brace and carriage-return
characters, and whose delimiter pick agrees between `CsvParser.detectDelimiter`
and the detector's `primaryDelim` (ruling out the tie-break divergence),
`detectFormat = csv` does imply that `CsvParser.parse` returns more than one
header, one row per non-blank data line, and that at least 80% of the data
lines tokenize to exactly the header count. -/
theorem c4_csv_consistency (input : String)
    (hchars : ∀ c ∈ input.data,
      c ≠ '"' ∧ c ≠ '[' ∧ c ≠ ']' ∧ c ≠ '\x7b' ∧ c ≠ '\x7d' ∧ c ≠ '\r')
    (hfmt : Detect.detectFormat input = Detect.DataFormat.csv)
    (hdelim : Csv.detectDelimiter (jsTrim input) =
      (Detect.primaryDelim ((((splitOnChar '\n' (jsTrim input).data).map String.mk).filter
        (fun l => jsTrim l ≠ "")).headD "").data).1) :
    1 < (Csv.parse input).headers.length ∧
    (Csv.parse input).rows.length = (csvLines input).length - 1 ∧
    4 * (Csv.parse input).rows.length ≤
      5 * ((csvLines input).drop 1).countP (fun line =>
        decide ((Csv.parseLine (Csv.detectDelimiter (jsTrim input)) line).length =
          (Csv.parse input).headers.length)) := by
  have htchars : ∀ c ∈ (jsTrim input).data,
      c ≠ '"' ∧ c ≠ '[' ∧ c ≠ ']' ∧ c ≠ '\x7b' ∧ c ≠ '\x7d' ∧ c ≠ '\r' :=
    fun c hc => hchars c (mem_jsTrimL input.data c hc)
  have hnoCR : '\r' ∉ (jsTrim input).data := fun h => (htchars _ h).2.2.2.2.2 rfl
  simp only [Detect.detectFormat] at hfmt
  by_cases h0 : (jsTrim input).data.length = 0
  · rw [if_pos h0] at hfmt
    exact absurd hfmt (by decide)
  rw [if_neg h0] at hfmt
  by_cases hmd : Detect.isMarkdownTable (jsTrim input) = true
  · rw [if_pos hmd] at hfmt
    exact absurd hfmt (by decide)
  rw [if_neg hmd] at hfmt
  by_cases hjs : Detect.isJSON (jsTrim input) = true
  · rw [if_pos hjs] at hfmt
    exact absurd hfmt (by decide)
  rw [if_neg hjs] at hfmt
  have hcsv : Detect.isCSV (jsTrim input) = true := by
    by_cases h : Detect.isCSV (jsTrim input) = true
    · exact h
    · rw [if_neg h] at hfmt
      exact absurd hfmt (by decide)
  have htne : jsTrim input ≠ "" := by
    intro h
    apply h0
    rw [h]
    rfl
  have hsplit : splitLinesCRLF (jsTrim input).data = splitOnChar '\n' (jsTrim input).data :=
    splitLinesCRLF_eq_splitOnChar _ hnoCR
  have hlines : csvLines input =
      ((splitOnChar '\n' (jsTrim input).data).filter (fun l => !isBlankL l)).map String.mk := by
    unfold csvLines
    rw [hsplit]
  simp only [Detect.isCSV] at hcsv
  rw [detectLines_eq (jsTrim input)] at hcsv hdelim
  obtain ⟨fL, rest, hM⟩ : ∃ fL rest, ((splitOnChar '\n' (jsTrim input).data).filter
      (fun l => !isBlankL l)).map String.mk = fL :: rest := by
    cases hMM : ((splitOnChar '\n' (jsTrim input).data).filter
        (fun l => !isBlankL l)).map String.mk with
    | nil =>
      rw [hMM] at hcsv
      simp at hcsv
    | cons a b => exact ⟨a, b, rfl⟩
  rw [hM] at hcsv hdelim hlines
  simp only [List.headD_cons] at hdelim
  by_cases hlen2 : (fL :: rest).length < 2
  · rw [if_pos hlen2] at hcsv
    exact absurd hcsv (by decide)
  rw [if_neg hlen2] at hcsv
  replace hcsv :
      (if (Detect.primaryDelim fL.data).2 = 0 then false
       else
        decide (5 * ((fL :: rest).filter (fun line =>
            decide ((splitOnChar (Detect.primaryDelim fL.data).1 line.data).length =
              (splitOnChar (Detect.primaryDelim fL.data).1 fL.data).length))).length >
          4 * (fL :: rest).length) &&
        decide ((splitOnChar (Detect.primaryDelim fL.data).1 fL.data).length > 1)) = true := hcsv
  by_cases hz : (Detect.primaryDelim fL.data).2 = 0
  · rw [if_pos hz] at hcsv
    exact absurd hcsv (by decide)
  rw [if_neg hz, Bool.and_eq_true, decide_eq_true_eq, decide_eq_true_eq] at hcsv
  obtain ⟨hcons, hH1⟩ := hcsv
  have hmem : ∀ line ∈ fL :: rest, ∀ c ∈ line.data,
      c ≠ '"' ∧ c ≠ '[' ∧ c ≠ ']' ∧ c ≠ '\x7b' ∧ c ≠ '\x7d' := by
    intro line hline c hc
    rw [← hM] at hline
    obtain ⟨a, ha, rfl⟩ := List.mem_map.mp hline
    have ha2 : a ∈ splitOnChar '\n' (jsTrim input).data := List.mem_of_mem_filter ha
    have hct : c ∈ (jsTrim input).data :=
      mem_splitOnChar '\n' (jsTrim input).data a ha2 c hc
    exact ⟨(htchars c hct).1, (htchars c hct).2.1, (htchars c hct).2.2.1,
      (htchars c hct).2.2.2.1, (htchars c hct).2.2.2.2.1⟩
  have hparse : Csv.parse input =
      Csv.parseFromLines (Csv.detectDelimiter (jsTrim input)) (fL :: rest) := by
    simp only [Csv.parse]
    rw [if_neg htne, hsplit, hM]
  have hfl : Csv.parseLine (Csv.detectDelimiter (jsTrim input)) fL =
      (splitOnChar (Csv.detectDelimiter (jsTrim input)) fL.data).map String.mk :=
    parseLine_plain _ fL (hmem fL (List.mem_cons_self fL rest))
  have hfllen : (Csv.parseLine (Csv.detectDelimiter (jsTrim input)) fL).length =
      (splitOnChar (Detect.primaryDelim fL.data).1 fL.data).length := by
    rw [hfl, List.length_map, hdelim]
  have hne0 : ¬((Csv.parseLine (Csv.detectDelimiter (jsTrim input)) fL).length = 0) := by
    rw [hfllen]
    omega
  have hheads : (Csv.parse input).headers =
      Csv.parseLine (Csv.detectDelimiter (jsTrim input)) fL := by
    rw [hparse]
    simp only [Csv.parseFromLines]
    rw [if_neg hne0, csv_parseRowsAux_spec]
  have hrows : (Csv.parse input).rows.length = rest.length := by
    rw [hparse]
    simp only [Csv.parseFromLines]
    rw [if_neg hne0, csv_parseRowsAux_spec]
    simp
  have hdrop : (fL :: rest).drop 1 = rest := rfl
  refine ⟨?_, ?_, ?_⟩
  · rw [hheads, hfllen]
    exact hH1
  · rw [hlines, hrows]
    simp
  · rw [hlines, hdrop, hrows]
    have hcount : rest.countP (fun line =>
        decide ((Csv.parseLine (Csv.detectDelimiter (jsTrim input)) line).length =
          (Csv.parse input).headers.length)) =
        rest.countP (fun line =>
          decide ((splitOnChar (Detect.primaryDelim fL.data).1 line.data).length =
            (splitOnChar (Detect.primaryDelim fL.data).1 fL.data).length)) := by
      apply List.countP_congr
      intro line hline
      have hpl : (Csv.parseLine (Csv.detectDelimiter (jsTrim input)) line).length =
          (splitOnChar (Detect.primaryDelim fL.data).1 line.data).length := by
        rw [parseLine_plain _ line (hmem line (List.mem_cons_of_mem fL hline)),
          List.length_map, hdelim]
      rw [hpl, hheads, hfllen]
    rw [hcount]
    rw [← List.countP_eq_length_filter] at hcons
    rw [List.countP_cons] at hcons
    simp at hcons
    omega

/-- C4 (witness): on the plain CSV input `a,b\n1,2\n3,4` all three hypotheses
of `c4_csv_consistency` hold and so does its conclusion. -/
theorem c4_csv_consistency_witness :
    (∀ c ∈ ("a,b\n1,2\n3,4" : String).data,
      c ≠ '"' ∧ c ≠ '[' ∧ c ≠ ']' ∧ c ≠ '\x7b' ∧ c ≠ '\x7d' ∧ c ≠ '\r') ∧
    Detect.detectFormat "a,b\n1,2\n3,4" = Detect.DataFormat.csv ∧
    (1 < (Csv.parse "a,b\n1,2\n3,4").headers.length ∧
     (Csv.parse "a,b\n1,2\n3,4").rows.length = (csvLines "a,b\n1,2\n3,4").length - 1 ∧
     4 * (Csv.parse "a,b\n1,2\n3,4").rows.length ≤
       5 * ((csvLines "a,b\n1,2\n3,4").drop 1).countP (fun line =>
         decide ((Csv.parseLine (Csv.detectDelimiter (jsTrim "a,b\n1,2\n3,4")) line).length =
           (Csv.parse "a,b\n1,2\n3,4").headers.length))) :=
  ⟨by decide, rfl, c4_csv_consistency "a,b\n1,2\n3,4" (by decide) rfl rfl⟩
